import Mathlib

/-!
Verification of the SquirrelDB TypeScript SDK's binary wire-protocol client
(`src/protocol.ts` and `src/tcp.ts`), shallowly embedded in Lean.

Bytes are modelled as `Nat` (values < 256 in any real buffer), byte buffers as
`List Nat`, JavaScript numbers that the protocol treats as integers as
`Nat`/`Int` with explicit `% 2 ^ w` where the `DataView` accessors truncate.
Fallible parsing returns `Except String` mirroring thrown `Error`s.
-/

namespace SquirrelDB

/-! ## Big-endian byte helpers

`DataView.setUint32(..., false)` stores the low 32 bits of its argument
big-endian; `setUint16`/`setUint8` likewise truncate.  The readers below fold
the bytes back. -/

/-- The two big-endian bytes written by `DataView.setUint16(_, n, false)`. -/
def u16be (n : Nat) : List Nat := [n / 2 ^ 8 % 256, n % 256]

/-- The four big-endian bytes written by `DataView.setUint32(_, n, false)`. -/
def u32be (n : Nat) : List Nat :=
  [n / 2 ^ 24 % 256, n / 2 ^ 16 % 256, n / 2 ^ 8 % 256, n % 256]

/-- The eight big-endian bytes of a 64-bit value. -/
def u64be (n : Nat) : List Nat :=
  [n / 2 ^ 56 % 256, n / 2 ^ 48 % 256, n / 2 ^ 40 % 256, n / 2 ^ 32 % 256,
   n / 2 ^ 24 % 256, n / 2 ^ 16 % 256, n / 2 ^ 8 % 256, n % 256]

/-- `DataView.getUint32(0, false)`: the first four bytes read big-endian. -/
def readU32BE (data : List Nat) : Nat :=
  data.getD 0 0 * 2 ^ 24 + data.getD 1 0 * 2 ^ 16 + data.getD 2 0 * 2 ^ 8 + data.getD 3 0

theorem readU32BE_u32be (n : Nat) (rest : List Nat) (h : n < 2 ^ 32) :
    readU32BE (u32be n ++ rest) = n := by
  simp only [u32be, readU32BE, List.cons_append, List.nil_append, List.getD_cons_zero,
    List.getD_cons_succ]
  omega

/-! ## `src/protocol.ts` — constants, flags, handshake, framing -/

/-- `MAX_MESSAGE_SIZE = 16 * 1024 * 1024` (16 MiB). -/
def MAX_MESSAGE_SIZE : Nat := 16 * 1024 * 1024

/-- `MessageType.Request = 0x01`. -/
def MessageTypeRequest : Nat := 1

/-- `Encoding.MessagePack = 0x01`. -/
def EncodingMessagePack : Nat := 1

/-- `Encoding.Json = 0x02`. -/
def EncodingJson : Nat := 2

/-- `interface ProtocolFlags` from `protocol.ts`. -/
structure ProtocolFlags where
  messagepack : Bool
  jsonFallback : Bool
deriving DecidableEq, Repr

/-- `flagsToByte` from `protocol.ts`: bit 0 = messagepack, bit 1 = jsonFallback. -/
def flagsToByte (flags : ProtocolFlags) : Nat :=
  (if flags.messagepack then 1 else 0) ||| (if flags.jsonFallback then 2 else 0)

/-- `byteToFlags` from `protocol.ts`. -/
def byteToFlags (byte : Nat) : ProtocolFlags :=
  { messagepack := byte &&& 1 != 0
    jsonFallback := byte &&& 2 != 0 }

/-- Result record of `parseHandshakeResponse`. -/
structure HandshakeResponse where
  status : Nat
  version : Nat
  flags : ProtocolFlags
  sessionId : List Nat
deriving DecidableEq, Repr

/-- `parseHandshakeResponse` from `protocol.ts`: throws when fewer than 19
bytes are available, otherwise reads `status` from byte 0, `version` from
byte 1, flags from byte 2, and `sessionId = data.slice(3, 19)`. -/
def parseHandshakeResponse (data : List Nat) : Except String HandshakeResponse :=
  if data.length < 19 then
    .error ("Handshake response too short: " ++ toString data.length ++ " bytes")
  else
    .ok { status := data.getD 0 0
          version := data.getD 1 0
          flags := byteToFlags (data.getD 2 0)
          sessionId := (data.drop 3).take 16 }

/-- Result record of `parseFrameHeader`.  `payloadLength` is `length - 2`
computed in JavaScript number arithmetic, hence an `Int`: nothing in the
source forces it to be non-negative. -/
structure FrameHeader where
  payloadLength : Int
  msgType : Nat
  encoding : Nat
deriving DecidableEq, Repr

/-- `buildFrame` from `protocol.ts`:
`length(4, BE) = payload.length + 2 | msgType(1) | encoding(1) | payload`.
The one-byte fields are truncated by `DataView.setUint8`. -/
def buildFrame (msgType encoding : Nat) (payload : List Nat) : List Nat :=
  u32be (payload.length + 2) ++ [msgType % 256, encoding % 256] ++ payload

/-- `parseFrameHeader` from `protocol.ts`: throws when fewer than 6 bytes are
present, otherwise returns `payloadLength = getUint32(0, BE) - 2` together
with the type and encoding bytes. -/
def parseFrameHeader (data : List Nat) : Except String FrameHeader :=
  if data.length < 6 then
    .error ("Frame header too short: " ++ toString data.length ++ " bytes")
  else
    .ok { payloadLength := (readU32BE data : Int) - 2
          msgType := data.getD 4 0
          encoding := data.getD 5 0 }

/-! ## C5 — frame build/parse round-trip -/

theorem buildFrame_as_cons (msgType encoding : Nat) (payload : List Nat) :
    buildFrame msgType encoding payload =
      (payload.length + 2) / 2 ^ 24 % 256 :: (payload.length + 2) / 2 ^ 16 % 256 ::
      (payload.length + 2) / 2 ^ 8 % 256 :: (payload.length + 2) % 256 ::
      msgType % 256 :: encoding % 256 :: payload := by
  simp [buildFrame, u32be]

/-- C5: building a frame and parsing its header recovers the message type, the
encoding, and `payloadLength = payload.length`; the first four bytes of the
built frame are the big-endian encoding of `payload.length + 2`, and the bytes
from offset 6 are the payload verbatim. -/
theorem frame_roundtrip (msgType encoding : Nat) (payload : List Nat)
    (hlen : payload.length + 2 < 2 ^ 32) (ht : msgType < 256) (he : encoding < 256) :
    parseFrameHeader (buildFrame msgType encoding payload) =
      .ok { payloadLength := (payload.length : Int), msgType := msgType, encoding := encoding }
    ∧ (buildFrame msgType encoding payload).take 4 = u32be (payload.length + 2)
    ∧ (buildFrame msgType encoding payload).drop 6 = payload := by
  have hread : readU32BE (buildFrame msgType encoding payload) = payload.length + 2 := by
    have := readU32BE_u32be (payload.length + 2)
      ([msgType % 256, encoding % 256] ++ payload) hlen
    simpa [buildFrame] using this
  refine ⟨?_, ?_, ?_⟩
  · rw [parseFrameHeader]
    have hlen6 : (buildFrame msgType encoding payload).length = 6 + payload.length := by
      simp [buildFrame, u32be]
      omega
    rw [if_neg (by omega)]
    rw [hread]
    have h4 : (buildFrame msgType encoding payload).getD 4 0 = msgType := by
      rw [buildFrame_as_cons]
      simp [List.getD]
      omega
    have h5 : (buildFrame msgType encoding payload).getD 5 0 = encoding := by
      rw [buildFrame_as_cons]
      simp [List.getD]
      omega
    rw [h4, h5]
    congr 1
    simp
  · rw [buildFrame_as_cons]
    simp [u32be]
  · rw [buildFrame_as_cons]
    simp

/-- Witness for C5 at a concrete frame: payload `[7, 8, 9]`, message type
`Request = 1`, encoding `Json = 2`. -/
theorem frame_roundtrip_witness :
    ((3 : Nat) + 2 < 2 ^ 32 ∧ (1 : Nat) < 256 ∧ (2 : Nat) < 256)
    ∧ (parseFrameHeader (buildFrame 1 2 [7, 8, 9]) =
        .ok { payloadLength := (3 : Int), msgType := 1, encoding := 2 }
      ∧ (buildFrame 1 2 [7, 8, 9]).take 4 = u32be 5
      ∧ (buildFrame 1 2 [7, 8, 9]).drop 6 = [7, 8, 9]) := by
  refine ⟨by norm_num, ?_⟩
  have h := frame_roundtrip 1 2 [7, 8, 9] (by norm_num) (by norm_num) (by norm_num)
  simpa using h

/-! ## C6 — handshake response parsing -/

/-- The two flag tests in `byteToFlags` are exactly bits 0 and 1 of the byte. -/
theorem byteToFlags_testBit (b : Nat) :
    byteToFlags b = { messagepack := b.testBit 0, jsonFallback := b.testBit 1 } := by
  have h1 : b &&& 1 = (b.testBit 0).toNat * 1 := by
    have := Nat.and_two_pow b 0
    simpa using this
  have h2 : b &&& 2 = (b.testBit 1).toNat * 2 := by
    have := Nat.and_two_pow b 1
    simpa using this
  rw [byteToFlags]
  congr 1
  · cases h : b.testBit 0 <;> simp [h1, h]
  · cases h : b.testBit 1 <;> simp [h2, h]

/-- C6: `parseHandshakeResponse` fails exactly when fewer than 19 bytes are
available; on any input of at least 19 bytes it succeeds with
`status` = byte 0, `version` = byte 1, flags decoded from byte 2
(bit 0 = binary-encoding support, bit 1 = text fallback), and
`sessionId` = bytes 3 through 18 (16 bytes). -/
theorem handshake_parse_spec (data : List Nat) :
    ((∃ e, parseHandshakeResponse data = .error e) ↔ data.length < 19)
    ∧ (19 ≤ data.length →
        parseHandshakeResponse data =
          .ok { status := data.getD 0 0
                version := data.getD 1 0
                flags := { messagepack := (data.getD 2 0).testBit 0
                           jsonFallback := (data.getD 2 0).testBit 1 }
                sessionId := (data.drop 3).take 16 }
        ∧ ((data.drop 3).take 16).length = 16) := by
  constructor
  · constructor
    · rintro ⟨e, he⟩
      by_contra h
      rw [parseHandshakeResponse, if_neg (by omega)] at he
      exact absurd he (by simp)
    · intro h
      exact ⟨_, by rw [parseHandshakeResponse, if_pos h]⟩
  · intro h
    constructor
    · rw [parseHandshakeResponse, if_neg (by omega), byteToFlags_testBit]
    · simp
      omega

/-- A concrete 19-byte handshake response: status 0, version 1, flags byte 3,
session id sixteen `7` bytes. -/
def handshakeSample : List Nat := [0, 1, 3] ++ List.replicate 16 7

/-- Witness for C6 at a concrete 19-byte response. -/
theorem handshake_parse_spec_witness :
    19 ≤ handshakeSample.length
    ∧ (parseHandshakeResponse handshakeSample =
        .ok { status := handshakeSample.getD 0 0
              version := handshakeSample.getD 1 0
              flags := { messagepack := (handshakeSample.getD 2 0).testBit 0
                         jsonFallback := (handshakeSample.getD 2 0).testBit 1 }
              sessionId := (handshakeSample.drop 3).take 16 }
      ∧ ((handshakeSample.drop 3).take 16).length = 16) :=
  ⟨by decide, (handshake_parse_spec handshakeSample).2 (by decide)⟩

/-! ## JavaScript values and the message vocabulary (`src/types.ts`)

`Value` is the universe of JSON-like JavaScript values the SDK ships in
message payloads: null, booleans, integers, strings (as their UTF-8 bytes),
arrays, and objects with ordered string keys. -/

inductive Value where
  | vNull : Value
  | vBool (b : Bool) : Value
  | vInt (n : Int) : Value
  | vStr (s : List Nat) : Value
  | vArr (items : List Value) : Value
  | vObj (fields : List (List Nat × Value)) : Value
deriving Repr

/-- `interface Document` from `types.ts`. -/
structure Document where
  id : String
  collection : String
  data : Value
  created_at : String
  updated_at : String

/-- `type ChangeEvent` from `types.ts`. -/
inductive ChangeEvent where
  | initial (document : Document)
  | insert (new : Document)
  | update (old : Value) (new : Document)
  | delete (old : Document)

/-- `type ServerMessage` from `types.ts`. -/
inductive ServerMessage where
  | result (id : String) (data : Value)
  | change (id : String) (change : ChangeEvent)
  | subscribed (id : String)
  | unsubscribed (id : String)
  | error (id : String) (error : String)
  | pong (id : String)

/-- The `id` field every server message carries. -/
def ServerMessage.msgId : ServerMessage → String
  | .result id _ => id
  | .change id _ => id
  | .subscribed id => id
  | .unsubscribed id => id
  | .error id _ => id
  | .pong id => id

/-- `msg.type === "change"`. -/
def ServerMessage.isChange : ServerMessage → Bool
  | .change _ _ => true
  | _ => false

/-- `msg.type === "error"`. -/
def ServerMessage.isError : ServerMessage → Bool
  | .error _ _ => true
  | _ => false

/-- `msg.type === "result"`. -/
def ServerMessage.isResult : ServerMessage → Bool
  | .result _ _ => true
  | _ => false

/-- `msg.type === "pong"`. -/
def ServerMessage.isPong : ServerMessage → Bool
  | .pong _ => true
  | _ => false

/-- `type ClientMessage` from `types.ts`. -/
inductive ClientMessage where
  | query (id : String) (query : String)
  | subscribe (id : String) (query : String)
  | unsubscribe (id : String)
  | insert (id : String) (collection : String) (data : Value)
  | update (id : String) (collection : String) (document_id : String) (data : Value)
  | delete (id : String) (collection : String) (document_id : String)
  | listcollections (id : String)
  | ping (id : String)

/-! ## `src/tcp.ts` — the wire session

The mutable fields of `class SquirrelDBTcp` become a `ClientState` record.
The two `Map`s are association lists with at most one entry per key, exactly
the JavaScript `Map` discipline.  Completion slots (`PendingRequest`) and
subscription callbacks are opaque to the session logic, so each table stores
an opaque `Nat` handle; everything the session does *through* a handle —
resolving, rejecting, invoking a callback, writing to the socket — is
recorded as an `Effect`. -/

structure ClientState where
  /-- `socket !== null`. -/
  socket : Bool
  sessionId : Option String
  encoding : Nat
  /-- `pending : Map<string, PendingRequest>` (handle = the completion slot). -/
  pending : List (String × Nat)
  /-- `subscriptions : Map<string, Subscription>` (handle = the callback). -/
  subscriptions : List (String × Nat)
  requestId : Nat
  readBuffer : List Nat
  /-- `handshakeResolve !== null`. -/
  handshakeResolveSet : Bool
  /-- `handshakeReject !== null`. -/
  handshakeRejectSet : Bool
  handshakeCompleted : Bool

/-- Observable actions the session performs through its opaque handles. -/
inductive Effect where
  /-- `pending.resolve(msg)` on the slot with this handle. -/
  | fulfill (handle : Nat) (msg : ServerMessage)
  /-- `pending.reject(new Error(err))` on the slot with this handle. -/
  | failPending (handle : Nat) (err : String)
  /-- `sub.callback(change)` on the callback with this handle. -/
  | invokeCallback (handle : Nat) (change : ChangeEvent)
  /-- `console.error(...)`. -/
  | logError (s : String)
  /-- `socket.write(buildFrame(Request, encoding, encodeMessage(msg, encoding)))`;
  the byte pipeline itself is verified separately (frame and codec theorems). -/
  | writeMsg (msg : ClientMessage)
  /-- `socket.end()`. -/
  | endSocket
  /-- `handshakeResolve()`. -/
  | resolveHandshake
  /-- `handshakeReject(new Error(err))`. -/
  | rejectHandshake (err : String)

/-- Does the effect invoke a subscription callback? -/
def Effect.isInvokeCallback : Effect → Bool
  | .invokeCallback _ _ => true
  | _ => false

/-- Is the effect a `pending.reject`? -/
def Effect.isFailPending : Effect → Bool
  | .failPending _ _ => true
  | _ => false

/-- Does the effect settle the handshake promise (resolve or reject)? -/
def Effect.touchesHandshake : Effect → Bool
  | .resolveHandshake => true
  | .rejectHandshake _ => true
  | _ => false

/-- `Map.prototype.get`. -/
def mapGet (m : List (String × Nat)) (k : String) : Option Nat :=
  match m with
  | [] => none
  | (k', v) :: rest => if k' = k then some v else mapGet rest k

/-- `Map.prototype.delete` (a `Map` holds at most one entry per key). -/
def mapDelete (m : List (String × Nat)) (k : String) : List (String × Nat) :=
  m.filter (fun p => p.1 != k)

/-- `Map.prototype.set`. -/
def mapSet (m : List (String × Nat)) (k : String) (v : Nat) : List (String × Nat) :=
  match m with
  | [] => [(k, v)]
  | (k', v') :: rest => if k' = k then (k, v) :: rest else (k', v') :: mapSet rest k v

theorem mapGet_mapDelete (m : List (String × Nat)) (k : String) :
    mapGet (mapDelete m k) k = none := by
  induction m with
  | nil => rfl
  | cons hd tl ih =>
    obtain ⟨k', v⟩ := hd
    rw [mapDelete, List.filter_cons]
    by_cases h : k' = k
    · rw [if_neg (by simpa using h)]
      simpa [mapDelete] using ih
    · rw [if_pos (by simpa using h), mapGet, if_neg h]
      simpa [mapDelete] using ih

/-- `dispatchMessage` from `tcp.ts`: change notifications are routed to the
subscription table (silently dropped if unmatched); every other message is
routed to the pending table, removing and resolving the entry (silently
dropped if unmatched). -/
def dispatchMessage (s : ClientState) (msg : ServerMessage) : ClientState × List Effect :=
  match msg with
  | .change id ch =>
    match mapGet s.subscriptions id with
    | some handle => (s, [.invokeCallback handle ch])
    | none => (s, [])
  | _ =>
    match mapGet s.pending msg.msgId with
    | some handle =>
      ({ s with pending := mapDelete s.pending msg.msgId }, [.fulfill handle msg])
    | none => (s, [])

/-- `handleClose` from `tcp.ts` (the socket `close` event handler consists of
exactly this call): reject every pending request with "Connection closed",
then clear the pending table.  Nothing else is touched. -/
def handleClose (s : ClientState) : ClientState × List Effect :=
  ({ s with pending := [] },
   s.pending.map (fun p => Effect.failPending p.2 "Connection closed"))

/-- `close()` from `tcp.ts`: clear the subscription table, end the socket if
present, null the socket field.  (The pending table is untouched here; it is
failed only when the transport later fires the `close` event, i.e.
`handleClose`.) -/
def close (s : ClientState) : ClientState × List Effect :=
  ({ s with subscriptions := [], socket := false },
   if s.socket then [Effect.endSocket] else [])

/-- `unsubscribe(subscriptionId)` from `tcp.ts`: delete the callback first,
then — only if a socket is present — write the unsubscribe request.  No
pending entry is registered and nothing is awaited. -/
def unsubscribe (s : ClientState) (subscriptionId : String) : ClientState × List Effect :=
  let s1 := { s with subscriptions := mapDelete s.subscriptions subscriptionId }
  if s1.socket then
    (s1, [Effect.writeMsg (ClientMessage.unsubscribe subscriptionId)])
  else
    (s1, [])

/-! ### Frame processing loop (`processFrames`)

`decodeMessage<ServerMessage>` casts the decoded value without validation, so
the loop is stated for an arbitrary decoder `dec` from payload bytes and the
frame's encoding byte to a server message or a thrown error. -/

/-- `TypedArray` index clamping used by `Uint8Array.prototype.slice`. -/
def jsIndex (len : Nat) (i : Int) : Nat :=
  if i < 0 then (max ((len : Int) + i) 0).toNat else min i.toNat len

/-- `buf.slice(start, stop)` on a `Uint8Array`. -/
def jsSlice (l : List Nat) (start stop : Int) : List Nat :=
  (l.take (jsIndex l.length stop)).drop (jsIndex l.length start)

/-- `buf.slice(start)` on a `Uint8Array`. -/
def jsSliceFrom (l : List Nat) (start : Int) : List Nat :=
  l.drop (jsIndex l.length start)

/-- One iteration of the `processFrames` `while` loop: `halt` leaves the loop,
`advance` goes round again. -/
inductive StepResult where
  | advance (s : ClientState) (effs : List Effect)
  | halt (s : ClientState) (effs : List Effect)

/-- The body of the `while (this.readBuffer.length >= 6)` loop in
`processFrames` (`tcp.ts`): parse the header; an oversized declared payload
logs `Message too large` and leaves the loop; a not-yet-complete frame leaves
the loop; otherwise the frame's bytes are consumed
(`payload = buf.slice(6, totalLength)`, `readBuffer = buf.slice(totalLength)`),
the payload is decoded (a decode error is logged and the loop continues), and
the message is dispatched. -/
def processFrameStep (dec : List Nat → Nat → Except String ServerMessage)
    (s : ClientState) : StepResult :=
  if s.readBuffer.length < 6 then .halt s []
  else
    match parseFrameHeader s.readBuffer with
    | .error _ => .halt s []  -- unreachable: the header parse only throws below 6 bytes
    | .ok header =>
      if (MAX_MESSAGE_SIZE : Int) < header.payloadLength then
        .halt s [.logError ("Message too large: " ++ toString header.payloadLength)]
      else
        let totalLength : Int := 6 + header.payloadLength
        if (s.readBuffer.length : Int) < totalLength then .halt s []
        else
          let payload := jsSlice s.readBuffer 6 totalLength
          let s1 := { s with readBuffer := jsSliceFrom s.readBuffer totalLength }
          match dec payload header.encoding with
          | .ok msg =>
            match dispatchMessage s1 msg with
            | (s2, effs) => .advance s2 effs
          | .error e => .advance s1 [.logError ("Failed to decode message: " ++ e)]

/-- The `processFrames` loop, fuelled.  Every `advance` consumes at least four
buffer bytes, so `readBuffer.length` rounds of fuel always suffice. -/
def processFramesAux (dec : List Nat → Nat → Except String ServerMessage) :
    Nat → ClientState → ClientState × List Effect
  | 0, s => (s, [])
  | fuel + 1, s =>
    match processFrameStep dec s with
    | .halt s' effs => (s', effs)
    | .advance s' effs =>
      match processFramesAux dec fuel s' with
      | (s'', effs') => (s'', effs ++ effs')

/-- `processFrames` from `tcp.ts`. -/
def processFrames (dec : List Nat → Nat → Except String ServerMessage)
    (s : ClientState) : ClientState × List Effect :=
  processFramesAux dec s.readBuffer.length s

/-! ### Client façade response validation (`tcp.ts` operations)

Each public operation awaits the correlated server response and then branches
on its tag exactly as the method bodies do.  The functions below are those
branches; `.error` carries the thrown message text. -/

/-- The response validation in `query<T>`. -/
def queryHandler : ServerMessage → Except String Value
  | .error _ e => .error e
  | .result _ d => .ok d
  | _ => .error "Unexpected response"

/-- The response validation in `queryRaw`. -/
def queryRawHandler : ServerMessage → Except String Value
  | .error _ e => .error e
  | .result _ d => .ok d
  | _ => .error "Unexpected response"

/-- The response validation in `insert`. -/
def insertHandler : ServerMessage → Except String Value
  | .error _ e => .error e
  | .result _ d => .ok d
  | _ => .error "Unexpected response"

/-- The response validation in `update`. -/
def updateHandler : ServerMessage → Except String Value
  | .error _ e => .error e
  | .result _ d => .ok d
  | _ => .error "Unexpected response"

/-- The response validation in `delete`. -/
def deleteHandler : ServerMessage → Except String Value
  | .error _ e => .error e
  | .result _ d => .ok d
  | _ => .error "Unexpected response"

/-- The response validation in `listCollections`. -/
def listCollectionsHandler : ServerMessage → Except String Value
  | .error _ e => .error e
  | .result _ d => .ok d
  | _ => .error "Unexpected response"

/-- The response validation in `subscribe`: only an `error` tag is rejected;
any other response is taken as the acknowledgement and the subscription is
registered. -/
def subscribeHandler : ServerMessage → Except String Unit
  | .error _ e => .error e
  | _ => .ok ()

/-- The response validation in `ping`: anything but `pong` throws
`"Unexpected response"`. -/
def pingHandler : ServerMessage → Except String Unit
  | .pong _ => .ok ()
  | _ => .error "Unexpected response"

/-! ## Session-layer lemmas -/

/-- Is the effect `socket.end()`? -/
def Effect.isEndSocket : Effect → Bool
  | .endSocket => true
  | _ => false

theorem dispatchMessage_readBuffer (s : ClientState) (msg : ServerMessage) :
    (dispatchMessage s msg).1.readBuffer = s.readBuffer := by
  cases msg <;> simp only [dispatchMessage] <;> split <;> rfl

/-- A decoder that rejects every payload, standing in for a `decodeMessage`
call that throws. -/
def decodeRejectAll : List Nat → Nat → Except String ServerMessage :=
  fun _ _ => .error "undecodable"

theorem processFrameStep_oversized (dec : List Nat → Nat → Except String ServerMessage)
    (s : ClientState) (h6 : 6 ≤ s.readBuffer.length)
    (hbig : (MAX_MESSAGE_SIZE : Int) < (readU32BE s.readBuffer : Int) - 2) :
    processFrameStep dec s =
      .halt s [.logError ("Message too large: " ++
        toString ((readU32BE s.readBuffer : Int) - 2))] := by
  have hp : parseFrameHeader s.readBuffer =
      .ok { payloadLength := (readU32BE s.readBuffer : Int) - 2
            msgType := s.readBuffer.getD 4 0
            encoding := s.readBuffer.getD 5 0 } := by
    rw [parseFrameHeader, if_neg (by omega)]
  rw [processFrameStep, if_neg (by omega), hp]
  simp only [if_pos hbig]

/-! ## C1 — oversized declared payload -/

/-- C1 (amended): when the next frame header declares
`payloadLength > MAX_MESSAGE_SIZE`, `processFrames` logs `Message too large`
and stops processing, leaving the entire session state — socket, pending
table, subscription table, receive buffer — unchanged.  It neither closes the
connection nor fails outstanding operations nor consumes the header. -/
theorem oversized_frame_behavior (dec : List Nat → Nat → Except String ServerMessage)
    (s : ClientState) (h6 : 6 ≤ s.readBuffer.length)
    (hbig : (MAX_MESSAGE_SIZE : Int) < (readU32BE s.readBuffer : Int) - 2) :
    processFrames dec s =
      (s, [.logError ("Message too large: " ++
        toString ((readU32BE s.readBuffer : Int) - 2))]) := by
  rw [processFrames]
  obtain ⟨fuel, hf⟩ : ∃ f, s.readBuffer.length = f + 1 :=
    ⟨s.readBuffer.length - 1, by omega⟩
  rw [hf, processFramesAux, processFrameStep_oversized dec s h6 hbig]

/-- Witness for C1's amended theorem: a buffer declaring a payload one byte
over the 16 MiB limit. -/
theorem oversized_frame_behavior_witness :
    (6 ≤ (u32be (MAX_MESSAGE_SIZE + 3) ++ [1, 1]).length
      ∧ (MAX_MESSAGE_SIZE : Int) <
          (readU32BE (u32be (MAX_MESSAGE_SIZE + 3) ++ [1, 1]) : Int) - 2)
    ∧ processFrames decodeRejectAll
        { socket := true, sessionId := none, encoding := 1
          pending := [("1", 0)], subscriptions := [], requestId := 1
          readBuffer := u32be (MAX_MESSAGE_SIZE + 3) ++ [1, 1]
          handshakeResolveSet := true, handshakeRejectSet := true
          handshakeCompleted := true } =
      ({ socket := true, sessionId := none, encoding := 1
         pending := [("1", 0)], subscriptions := [], requestId := 1
         readBuffer := u32be (MAX_MESSAGE_SIZE + 3) ++ [1, 1]
         handshakeResolveSet := true, handshakeRejectSet := true
         handshakeCompleted := true },
       [.logError ("Message too large: " ++
          toString ((readU32BE (u32be (MAX_MESSAGE_SIZE + 3) ++ [1, 1]) : Int) - 2))]) :=
  ⟨⟨by decide, by decide⟩,
   oversized_frame_behavior decodeRejectAll _ (by decide) (by decide)⟩

/-- Counterexample to C1 as stated: with an oversized header buffered and one
request outstanding, frame processing leaves the socket open, the pending
request alive, and the buffer untouched; no effect closes the socket or fails
a pending operation — the session is *not* terminated. -/
theorem oversized_frame_counterexample :
    (processFrames decodeRejectAll
        { socket := true, sessionId := none, encoding := 1
          pending := [("1", 0)], subscriptions := [], requestId := 1
          readBuffer := u32be (MAX_MESSAGE_SIZE + 3) ++ [1, 1]
          handshakeResolveSet := true, handshakeRejectSet := true
          handshakeCompleted := true }).1.socket = true
    ∧ (processFrames decodeRejectAll
        { socket := true, sessionId := none, encoding := 1
          pending := [("1", 0)], subscriptions := [], requestId := 1
          readBuffer := u32be (MAX_MESSAGE_SIZE + 3) ++ [1, 1]
          handshakeResolveSet := true, handshakeRejectSet := true
          handshakeCompleted := true }).1.pending = [("1", 0)]
    ∧ (processFrames decodeRejectAll
        { socket := true, sessionId := none, encoding := 1
          pending := [("1", 0)], subscriptions := [], requestId := 1
          readBuffer := u32be (MAX_MESSAGE_SIZE + 3) ++ [1, 1]
          handshakeResolveSet := true, handshakeRejectSet := true
          handshakeCompleted := true }).1.readBuffer
        = u32be (MAX_MESSAGE_SIZE + 3) ++ [1, 1]
    ∧ ((processFrames decodeRejectAll
        { socket := true, sessionId := none, encoding := 1
          pending := [("1", 0)], subscriptions := [], requestId := 1
          readBuffer := u32be (MAX_MESSAGE_SIZE + 3) ++ [1, 1]
          handshakeResolveSet := true, handshakeRejectSet := true
          handshakeCompleted := true }).2.all
        fun e => !e.isFailPending && !e.isEndSocket) = true := by
  refine ⟨rfl, rfl, rfl, rfl⟩

/-! ## C2 — close semantics -/

/-- C2 (amended): on transport close (`handleClose`), every pending entry is
failed with "Connection closed" and the pending table is cleared, but the
subscription table is left *unchanged*.  Explicit user `close()` clears the
subscription table without invoking any callback and leaves the pending table
alone; pending entries are failed when the transport close event that follows
runs `handleClose`, after which both tables are empty. -/
theorem close_semantics (s : ClientState) :
    (handleClose s).1 = { s with pending := [] }
    ∧ (handleClose s).2 =
        s.pending.map (fun p => Effect.failPending p.2 "Connection closed")
    ∧ (close s).1.subscriptions = []
    ∧ (close s).1.pending = s.pending
    ∧ ((close s).2.all fun e => !e.isInvokeCallback) = true
    ∧ (handleClose (close s).1).1.pending = []
    ∧ (handleClose (close s).1).1.subscriptions = []
    ∧ (handleClose (close s).1).2 =
        s.pending.map (fun p => Effect.failPending p.2 "Connection closed")
    ∧ ((handleClose (close s).1).2.all fun e => !e.isInvokeCallback) = true := by
  refine ⟨rfl, rfl, rfl, rfl, ?_, rfl, rfl, rfl, ?_⟩
  · by_cases hs : s.socket <;> simp [close, hs, Effect.isInvokeCallback]
  · simp only [handleClose, close]
    rw [List.all_eq_true]
    intro e he
    obtain ⟨p, _, rfl⟩ := List.mem_map.mp he
    rfl

/-- Counterexample to C2 as stated: a transport close with one live
subscription leaves the subscription table non-empty. -/
theorem transport_close_keeps_subscriptions :
    (handleClose
        { socket := true, sessionId := none, encoding := 1
          pending := [("7", 1)], subscriptions := [("3", 2)], requestId := 7
          readBuffer := [], handshakeResolveSet := true
          handshakeRejectSet := true, handshakeCompleted := true }).1.subscriptions
      = [("3", 2)]
    ∧ ([("3", (2 : Nat))] : List (String × Nat)) ≠ [] := ⟨rfl, by decide⟩

/-! ## C3 — façade response-tag validation -/

/-- C3 (amended): `query`, `queryRaw`, `insert`, `update`, `delete` and
`listCollections` validate as the claim states — an `error` response fails
with the server's text, a `result` response is accepted, anything else fails
with "Unexpected response".  `subscribe`, however, rejects only `error`
responses and accepts *any* other tag as the acknowledgement; and `ping`
fails every non-`pong` response — including `error` responses, whose server
text is discarded — with the generic "Unexpected response". -/
theorem facade_validation (resp : ServerMessage) :
    (∀ id e, queryHandler (.error id e) = .error e
      ∧ queryRawHandler (.error id e) = .error e
      ∧ insertHandler (.error id e) = .error e
      ∧ updateHandler (.error id e) = .error e
      ∧ deleteHandler (.error id e) = .error e
      ∧ listCollectionsHandler (.error id e) = .error e
      ∧ subscribeHandler (.error id e) = .error e
      ∧ pingHandler (.error id e) = .error "Unexpected response")
    ∧ (∀ id d, queryHandler (.result id d) = .ok d
      ∧ queryRawHandler (.result id d) = .ok d
      ∧ insertHandler (.result id d) = .ok d
      ∧ updateHandler (.result id d) = .ok d
      ∧ deleteHandler (.result id d) = .ok d
      ∧ listCollectionsHandler (.result id d) = .ok d
      ∧ subscribeHandler (.result id d) = .ok ())
    ∧ (resp.isError = false → resp.isResult = false →
        queryHandler resp = .error "Unexpected response"
        ∧ queryRawHandler resp = .error "Unexpected response"
        ∧ insertHandler resp = .error "Unexpected response"
        ∧ updateHandler resp = .error "Unexpected response"
        ∧ deleteHandler resp = .error "Unexpected response"
        ∧ listCollectionsHandler resp = .error "Unexpected response")
    ∧ (resp.isError = false → subscribeHandler resp = .ok ())
    ∧ (∀ id, pingHandler (.pong id) = .ok ())
    ∧ (resp.isPong = false → pingHandler resp = .error "Unexpected response") := by
  refine ⟨fun id e => ⟨rfl, rfl, rfl, rfl, rfl, rfl, rfl, rfl⟩,
          fun id d => ⟨rfl, rfl, rfl, rfl, rfl, rfl, rfl⟩, ?_, ?_, fun id => rfl, ?_⟩
  · intro he hr
    cases resp <;> simp_all [ServerMessage.isError, ServerMessage.isResult] <;>
      exact ⟨rfl, rfl, rfl, rfl, rfl, rfl⟩
  · intro he
    cases resp <;> simp_all [ServerMessage.isError] <;> rfl
  · intro hp
    cases resp <;> simp_all [ServerMessage.isPong] <;> rfl

/-- Witness for C3's amended theorem at a `subscribed`-tagged response. -/
theorem facade_validation_witness :
    ((ServerMessage.subscribed "9").isError = false
      ∧ (ServerMessage.subscribed "9").isResult = false)
    ∧ (queryHandler (.subscribed "9") = .error "Unexpected response"
      ∧ queryRawHandler (.subscribed "9") = .error "Unexpected response"
      ∧ insertHandler (.subscribed "9") = .error "Unexpected response"
      ∧ updateHandler (.subscribed "9") = .error "Unexpected response"
      ∧ deleteHandler (.subscribed "9") = .error "Unexpected response"
      ∧ listCollectionsHandler (.subscribed "9") = .error "Unexpected response") :=
  ⟨⟨rfl, rfl⟩, (facade_validation (.subscribed "9")).2.2.1 rfl rfl⟩

/-- Counterexample to C3 as stated: a `result`-tagged response to a subscribe
is accepted (not failed with "unexpected response"), and an `error`-tagged
response to a ping fails with the generic text instead of the server's. -/
theorem subscribe_ping_validation_counterexample :
    subscribeHandler (.result "1" .vNull) = .ok ()
    ∧ pingHandler (.error "1" "boom") = .error "Unexpected response"
    ∧ ("boom" : String) ≠ "Unexpected response" := ⟨rfl, rfl, by decide⟩

/-! ## C4 — one-shot table-driven dispatch -/

/-- C4: a `change` message is delivered to the subscription callback for its
id when present and silently dropped otherwise, with no state change either
way; any other message whose id has a pending entry removes that entry and
fulfills it exactly once (the subscription table untouched), after which the
id no longer resolves, so a second delivery of the same id — or any id with
no entry — is silently dropped with no change to either table. -/
theorem dispatch_correctness (s : ClientState) (msg : ServerMessage) :
    (∀ id ch, msg = .change id ch →
       (∀ h, mapGet s.subscriptions id = some h →
          dispatchMessage s msg = (s, [.invokeCallback h ch]))
       ∧ (mapGet s.subscriptions id = none → dispatchMessage s msg = (s, [])))
    ∧ (msg.isChange = false →
       (∀ h, mapGet s.pending msg.msgId = some h →
          dispatchMessage s msg =
            ({ s with pending := mapDelete s.pending msg.msgId }, [.fulfill h msg])
          ∧ mapGet (mapDelete s.pending msg.msgId) msg.msgId = none
          ∧ dispatchMessage { s with pending := mapDelete s.pending msg.msgId } msg
              = ({ s with pending := mapDelete s.pending msg.msgId }, []))
       ∧ (mapGet s.pending msg.msgId = none → dispatchMessage s msg = (s, []))) := by
  constructor
  · rintro id ch rfl
    constructor
    · intro h hh
      simp [dispatchMessage, hh]
    · intro hh
      simp [dispatchMessage, hh]
  · intro hnc
    constructor
    · intro h hh
      refine ⟨?_, mapGet_mapDelete s.pending msg.msgId, ?_⟩
      · cases msg <;> simp_all [dispatchMessage, ServerMessage.isChange, ServerMessage.msgId]
      · cases msg <;>
          simp_all [dispatchMessage, ServerMessage.isChange, ServerMessage.msgId,
            mapGet_mapDelete]
    · intro hh
      cases msg <;> simp_all [dispatchMessage, ServerMessage.isChange, ServerMessage.msgId]

/-- Witness for C4 at the spec's own example: a pending request under id
`"3"` fulfilled by a `result`-tagged message, whose repeat delivery is
dropped. -/
theorem dispatch_correctness_witness :
    ((ServerMessage.result "3" .vNull).isChange = false
      ∧ mapGet [("3", 7)] (ServerMessage.result "3" .vNull).msgId = some 7)
    ∧ (dispatchMessage
          { socket := true, sessionId := none, encoding := 1
            pending := [("3", 7)], subscriptions := [], requestId := 3
            readBuffer := [], handshakeResolveSet := true
            handshakeRejectSet := true, handshakeCompleted := true }
          (.result "3" .vNull) =
        ({ socket := true, sessionId := none, encoding := 1
           pending := mapDelete [("3", 7)] (ServerMessage.result "3" .vNull).msgId
           subscriptions := [], requestId := 3
           readBuffer := [], handshakeResolveSet := true
           handshakeRejectSet := true, handshakeCompleted := true },
         [.fulfill 7 (.result "3" .vNull)])
      ∧ mapGet (mapDelete [("3", 7)] (ServerMessage.result "3" .vNull).msgId)
          (ServerMessage.result "3" .vNull).msgId = none
      ∧ dispatchMessage
          { socket := true, sessionId := none, encoding := 1
            pending := mapDelete [("3", 7)] (ServerMessage.result "3" .vNull).msgId
            subscriptions := [], requestId := 3
            readBuffer := [], handshakeResolveSet := true
            handshakeRejectSet := true, handshakeCompleted := true }
          (.result "3" .vNull) =
        ({ socket := true, sessionId := none, encoding := 1
           pending := mapDelete [("3", 7)] (ServerMessage.result "3" .vNull).msgId
           subscriptions := [], requestId := 3
           readBuffer := [], handshakeResolveSet := true
           handshakeRejectSet := true, handshakeCompleted := true },
         [])) :=
  ⟨⟨rfl, rfl⟩,
   ((dispatch_correctness
      { socket := true, sessionId := none, encoding := 1
        pending := [("3", 7)], subscriptions := [], requestId := 3
        readBuffer := [], handshakeResolveSet := true
        handshakeRejectSet := true, handshakeCompleted := true }
      (.result "3" .vNull)).2 rfl).1 7 rfl⟩

/-! ## C8 — no lower bound on the length field -/

/-- C8: a 6-byte-or-longer buffer whose big-endian length field is below 2
parses successfully to a *negative* `payloadLength = length - 2`, and the
frame-processing step then consumes `6 + payloadLength` — fewer than the 6
header bytes — leaving the byte stream desynchronized instead of rejecting
the malformed header. -/
theorem undersized_length_desync (dec : List Nat → Nat → Except String ServerMessage)
    (s : ClientState) (h6 : 6 ≤ s.readBuffer.length)
    (hlen : readU32BE s.readBuffer < 2) :
    parseFrameHeader s.readBuffer =
      .ok { payloadLength := (readU32BE s.readBuffer : Int) - 2
            msgType := s.readBuffer.getD 4 0
            encoding := s.readBuffer.getD 5 0 }
    ∧ (readU32BE s.readBuffer : Int) - 2 < 0
    ∧ ∃ s' effs, processFrameStep dec s = .advance s' effs
        ∧ s'.readBuffer = s.readBuffer.drop (4 + readU32BE s.readBuffer)
        ∧ 4 + readU32BE s.readBuffer < 6 := by
  have hp : parseFrameHeader s.readBuffer =
      .ok { payloadLength := (readU32BE s.readBuffer : Int) - 2
            msgType := s.readBuffer.getD 4 0
            encoding := s.readBuffer.getD 5 0 } := by
    rw [parseFrameHeader, if_neg (by omega)]
  refine ⟨hp, by omega, ?_⟩
  have hdrop : jsSliceFrom s.readBuffer (6 + ((readU32BE s.readBuffer : Int) - 2)) =
      s.readBuffer.drop (4 + readU32BE s.readBuffer) := by
    rw [jsSliceFrom, jsIndex, if_neg (by omega)]
    have h1 : (6 + ((readU32BE s.readBuffer : Int) - 2)).toNat =
        4 + readU32BE s.readBuffer := by omega
    rw [h1]
    rcases le_or_lt (4 + readU32BE s.readBuffer) s.readBuffer.length with h | h
    · rw [min_eq_left h]
    · rw [min_eq_right h.le, List.drop_eq_nil_of_le le_rfl,
        List.drop_eq_nil_of_le h.le]
  rw [processFrameStep, if_neg (by omega), hp]
  simp only [if_neg (show ¬ ((MAX_MESSAGE_SIZE : Int) < (readU32BE s.readBuffer : Int) - 2) by
    rw [MAX_MESSAGE_SIZE]; omega)]
  simp only [if_neg (show ¬ ((s.readBuffer.length : Int) <
    6 + ((readU32BE s.readBuffer : Int) - 2)) by omega)]
  rw [hdrop]
  cases hdec : dec (jsSlice s.readBuffer 6 (6 + ((readU32BE s.readBuffer : Int) - 2)))
      (s.readBuffer.getD 5 0) with
  | ok msg =>
    exact ⟨_, _, rfl, by rw [dispatchMessage_readBuffer], by omega⟩
  | error e =>
    exact ⟨_, _, rfl, rfl, by omega⟩

/-- Witness for C8: a zero length field consumes only four of the six header
bytes. -/
theorem undersized_length_desync_witness :
    (6 ≤ ([0, 0, 0, 0, 1, 2, 9, 9] : List Nat).length
      ∧ readU32BE [0, 0, 0, 0, 1, 2, 9, 9] < 2)
    ∧ (parseFrameHeader ([0, 0, 0, 0, 1, 2, 9, 9] : List Nat) =
        .ok { payloadLength := (readU32BE ([0, 0, 0, 0, 1, 2, 9, 9] : List Nat) : Int) - 2
              msgType := ([0, 0, 0, 0, 1, 2, 9, 9] : List Nat).getD 4 0
              encoding := ([0, 0, 0, 0, 1, 2, 9, 9] : List Nat).getD 5 0 }
      ∧ (readU32BE ([0, 0, 0, 0, 1, 2, 9, 9] : List Nat) : Int) - 2 < 0
      ∧ ∃ s' effs, processFrameStep decodeRejectAll
            { socket := true, sessionId := none, encoding := 1
              pending := [], subscriptions := [], requestId := 0
              readBuffer := [0, 0, 0, 0, 1, 2, 9, 9]
              handshakeResolveSet := true, handshakeRejectSet := true
              handshakeCompleted := true } = .advance s' effs
          ∧ s'.readBuffer = ([0, 0, 0, 0, 1, 2, 9, 9] : List Nat).drop
              (4 + readU32BE [0, 0, 0, 0, 1, 2, 9, 9])
          ∧ 4 + readU32BE [0, 0, 0, 0, 1, 2, 9, 9] < 6) :=
  ⟨⟨by decide, by decide⟩,
   undersized_length_desync decodeRejectAll
     { socket := true, sessionId := none, encoding := 1
       pending := [], subscriptions := [], requestId := 0
       readBuffer := [0, 0, 0, 0, 1, 2, 9, 9]
       handshakeResolveSet := true, handshakeRejectSet := true
       handshakeCompleted := true } (by decide) (by decide)⟩

/-! ## C9 — fire-and-forget unsubscribe -/

/-- C9: `unsubscribe` removes the callback from the subscription table before
any write, registers no pending entry, writes the unsubscribe request only
when a socket is present, never fails, and — because no pending entry exists
for the id — the server's later `unsubscribed` acknowledgement is silently
dropped by dispatch. -/
theorem unsubscribe_fire_and_forget (s : ClientState) (subId : String) :
    (unsubscribe s subId).1 =
      { s with subscriptions := mapDelete s.subscriptions subId }
    ∧ (unsubscribe s subId).1.pending = s.pending
    ∧ mapGet (unsubscribe s subId).1.subscriptions subId = none
    ∧ (s.socket = true →
        (unsubscribe s subId).2 = [.writeMsg (.unsubscribe subId)])
    ∧ (s.socket = false → (unsubscribe s subId).2 = [])
    ∧ ((unsubscribe s subId).2.all fun e => !e.isFailPending) = true
    ∧ (mapGet s.pending subId = none →
        dispatchMessage (unsubscribe s subId).1 (.unsubscribed subId)
          = ((unsubscribe s subId).1, [])) := by
  refine ⟨?_, ?_, ?_, ?_, ?_, ?_, ?_⟩
  · by_cases hs : s.socket <;> simp [unsubscribe, hs]
  · by_cases hs : s.socket <;> simp [unsubscribe, hs]
  · by_cases hs : s.socket <;> simp [unsubscribe, hs, mapGet_mapDelete]
  · intro hs; simp [unsubscribe, hs]
  · intro hs; simp [unsubscribe, hs]
  · by_cases hs : s.socket <;> simp [unsubscribe, hs, Effect.isFailPending]
  · intro hp
    by_cases hs : s.socket <;>
      simp [unsubscribe, hs, dispatchMessage, ServerMessage.msgId, hp]

/-- Witness for C9: unsubscribing id `"5"` with a live socket. -/
theorem unsubscribe_fire_and_forget_witness :
    (({ socket := true, sessionId := none, encoding := 1
        pending := [], subscriptions := [("5", 3)], requestId := 5
        readBuffer := [], handshakeResolveSet := true
        handshakeRejectSet := true, handshakeCompleted := true } : ClientState).socket = true
      ∧ mapGet ([] : List (String × Nat)) "5" = none)
    ∧ ((unsubscribe
          { socket := true, sessionId := none, encoding := 1
            pending := [], subscriptions := [("5", 3)], requestId := 5
            readBuffer := [], handshakeResolveSet := true
            handshakeRejectSet := true, handshakeCompleted := true } "5").2
        = [.writeMsg (.unsubscribe "5")]
      ∧ dispatchMessage
          (unsubscribe
            { socket := true, sessionId := none, encoding := 1
              pending := [], subscriptions := [("5", 3)], requestId := 5
              readBuffer := [], handshakeResolveSet := true
              handshakeRejectSet := true, handshakeCompleted := true } "5").1
          (.unsubscribed "5")
        = ((unsubscribe
            { socket := true, sessionId := none, encoding := 1
              pending := [], subscriptions := [("5", 3)], requestId := 5
              readBuffer := [], handshakeResolveSet := true
              handshakeRejectSet := true, handshakeCompleted := true } "5").1, [])) :=
  ⟨⟨rfl, rfl⟩,
   (unsubscribe_fire_and_forget
      { socket := true, sessionId := none, encoding := 1
        pending := [], subscriptions := [("5", 3)], requestId := 5
        readBuffer := [], handshakeResolveSet := true
        handshakeRejectSet := true, handshakeCompleted := true } "5").2.2.2.1 rfl,
   (unsubscribe_fire_and_forget
      { socket := true, sessionId := none, encoding := 1
        pending := [], subscriptions := [("5", 3)], requestId := 5
        readBuffer := [], handshakeResolveSet := true
        handshakeRejectSet := true, handshakeCompleted := true } "5").2.2.2.2.2.2 rfl⟩

/-! ## C10 — the transport-close handler's frame -/

/-- C10: the transport-close handler modifies only the pending table: the
socket field, session id, encoding, subscription table, request counter,
receive buffer, and all three handshake slots are unchanged, and no effect it
emits settles the handshake promise — so a clean close before the handshake
response leaves the connect promise neither resolved nor rejected. -/
theorem transport_close_frame (s : ClientState) :
    (handleClose s).1.socket = s.socket
    ∧ (handleClose s).1.sessionId = s.sessionId
    ∧ (handleClose s).1.encoding = s.encoding
    ∧ (handleClose s).1.subscriptions = s.subscriptions
    ∧ (handleClose s).1.requestId = s.requestId
    ∧ (handleClose s).1.readBuffer = s.readBuffer
    ∧ (handleClose s).1.handshakeResolveSet = s.handshakeResolveSet
    ∧ (handleClose s).1.handshakeRejectSet = s.handshakeRejectSet
    ∧ (handleClose s).1.handshakeCompleted = s.handshakeCompleted
    ∧ (handleClose s).1.pending = []
    ∧ ((handleClose s).2.all fun e => !e.touchesHandshake) = true := by
  refine ⟨rfl, rfl, rfl, rfl, rfl, rfl, rfl, rfl, rfl, rfl, ?_⟩
  simp only [handleClose]
  rw [List.all_eq_true]
  intro e he
  obtain ⟨p, _, rfl⟩ := List.mem_map.mp he
  rfl

/-! ## Message codec (C7)

`encodeMessage`/`decodeMessage` in `protocol.ts` dispatch on the encoding tag
between `msgpackr`'s `pack`/`unpack` and `JSON.stringify`/`JSON.parse`.  Both
serializers are external to this repository, so they are modelled here from
the spec over the `Value` universe.

Modelled from the spec: `pack`/`unpack` (the `msgpackr` library) — "a compact
binary object encoding".  The model is the MessagePack format itself: nil,
booleans, the fix/8/16/32/64-bit integer families (smallest usable form, as
the format recommends), fixstr/str8/str16/str32 strings, fixarray/array16/
array32 arrays, and fixmap/map16/map32 maps with string keys. -/

mutual

/-- Size bounds under which a value is representable on the MessagePack wire
(string/collection lengths below `2 ^ 32`, integers in the int64/uint64
range); JavaScript enforces the same bounds on real data. -/
def sizeOkV : Value → Bool
  | .vNull => true
  | .vBool _ => true
  | .vInt n => decide (-(2 : Int) ^ 63 ≤ n) && decide (n < (2 : Int) ^ 64)
  | .vStr s => decide (s.length < 2 ^ 32)
  | .vArr items => decide (items.length < 2 ^ 32) && sizeOkL items
  | .vObj fields => decide (fields.length < 2 ^ 32) && sizeOkF fields

/-- `sizeOkV` for every element of a list. -/
def sizeOkL : List Value → Bool
  | [] => true
  | v :: vs => sizeOkV v && sizeOkL vs

/-- `sizeOkV` for every field value, plus the key-length bound. -/
def sizeOkF : List (List Nat × Value) → Bool
  | [] => true
  | (k, v) :: fs => decide (k.length < 2 ^ 32) && sizeOkV v && sizeOkF fs

end

/-- Read `k` big-endian bytes off the front of the input. -/
def readBE : Nat → List Nat → Option (Nat × List Nat)
  | 0, data => some (0, data)
  | _ + 1, [] => none
  | k + 1, b :: rest =>
    match readBE k rest with
    | some (v, r) => some (b * 256 ^ k + v, r)
    | none => none

/-- Read `k` raw bytes off the front of the input. -/
def readBytes : Nat → List Nat → Option (List Nat × List Nat)
  | 0, data => some ([], data)
  | _ + 1, [] => none
  | k + 1, b :: rest =>
    match readBytes k rest with
    | some (s, r) => some (b :: s, r)
    | none => none

/-- MessagePack integer encoding, smallest usable form. -/
def packInt (n : Int) : List Nat :=
  if 0 ≤ n then
    if n.toNat < 128 then [n.toNat]
    else if n.toNat < 256 then [0xcc, n.toNat]
    else if n.toNat < 2 ^ 16 then 0xcd :: u16be n.toNat
    else if n.toNat < 2 ^ 32 then 0xce :: u32be n.toNat
    else 0xcf :: u64be n.toNat
  else
    if -32 ≤ n then [(n + 256).toNat]
    else if -128 ≤ n then [0xd0, (n + 256).toNat]
    else if -(2 : Int) ^ 15 ≤ n then 0xd1 :: u16be (n + 2 ^ 16).toNat
    else if -(2 : Int) ^ 31 ≤ n then 0xd2 :: u32be (n + 2 ^ 32).toNat
    else 0xd3 :: u64be (n + 2 ^ 64).toNat

/-- MessagePack string encoding: fixstr / str8 / str16 / str32. -/
def packStr (s : List Nat) : List Nat :=
  if s.length < 32 then (0xa0 + s.length) :: s
  else if s.length < 256 then 0xd9 :: s.length :: s
  else if s.length < 2 ^ 16 then 0xda :: u16be s.length ++ s
  else 0xdb :: u32be s.length ++ s

/-- MessagePack string decoding (all four string forms). -/
def unpackStr (data : List Nat) : Option (List Nat × List Nat) :=
  match data with
  | [] => none
  | b :: rest =>
    if 0xa0 ≤ b ∧ b < 0xc0 then readBytes (b - 0xa0) rest
    else if b = 0xd9 then
      match rest with
      | len :: r => readBytes len r
      | [] => none
    else if b = 0xda then
      match readBE 2 rest with
      | some (len, r) => readBytes len r
      | none => none
    else if b = 0xdb then
      match readBE 4 rest with
      | some (len, r) => readBytes len r
      | none => none
    else none

mutual

/-- MessagePack encoding of a value. -/
def packValue : Value → List Nat
  | .vNull => [0xc0]
  | .vBool false => [0xc2]
  | .vBool true => [0xc3]
  | .vInt n => packInt n
  | .vStr s => packStr s
  | .vArr items =>
    (if items.length < 16 then [0x90 + items.length]
     else if items.length < 2 ^ 16 then 0xdc :: u16be items.length
     else 0xdd :: u32be items.length) ++ packList items
  | .vObj fields =>
    (if fields.length < 16 then [0x80 + fields.length]
     else if fields.length < 2 ^ 16 then 0xde :: u16be fields.length
     else 0xdf :: u32be fields.length) ++ packFields fields

/-- The concatenated encodings of the array elements. -/
def packList : List Value → List Nat
  | [] => []
  | v :: vs => packValue v ++ packList vs

/-- The concatenated key/value encodings of the map entries. -/
def packFields : List (List Nat × Value) → List Nat
  | [] => []
  | (k, v) :: fs => packStr k ++ packValue v ++ packFields fs

end

mutual

/-- MessagePack decoding of one value (fuelled). -/
def unpackValue (fuel : Nat) (data : List Nat) : Option (Value × List Nat) :=
  match fuel, data with
  | 0, _ => none
  | _ + 1, [] => none
  | f + 1, b :: rest =>
    if b < 0x80 then some (.vInt b, rest)
    else if b < 0x90 then
      match unpackFields f (b - 0x80) rest with
      | some (fs, r) => some (.vObj fs, r)
      | none => none
    else if b < 0xa0 then
      match unpackList f (b - 0x90) rest with
      | some (vs, r) => some (.vArr vs, r)
      | none => none
    else if b < 0xc0 then
      match unpackStr (b :: rest) with
      | some (s, r) => some (.vStr s, r)
      | none => none
    else if b = 0xc0 then some (.vNull, rest)
    else if b = 0xc2 then some (.vBool false, rest)
    else if b = 0xc3 then some (.vBool true, rest)
    else if b = 0xcc then
      match rest with
      | x :: r => some (.vInt x, r)
      | [] => none
    else if b = 0xcd then
      match readBE 2 rest with
      | some (m, r) => some (.vInt m, r)
      | none => none
    else if b = 0xce then
      match readBE 4 rest with
      | some (m, r) => some (.vInt m, r)
      | none => none
    else if b = 0xcf then
      match readBE 8 rest with
      | some (m, r) => some (.vInt m, r)
      | none => none
    else if b = 0xd0 then
      match rest with
      | x :: r => some (.vInt (if x < 128 then (x : Int) else (x : Int) - 256), r)
      | [] => none
    else if b = 0xd1 then
      match readBE 2 rest with
      | some (m, r) =>
        some (.vInt (if m < 2 ^ 15 then (m : Int) else (m : Int) - 2 ^ 16), r)
      | none => none
    else if b = 0xd2 then
      match readBE 4 rest with
      | some (m, r) =>
        some (.vInt (if m < 2 ^ 31 then (m : Int) else (m : Int) - 2 ^ 32), r)
      | none => none
    else if b = 0xd3 then
      match readBE 8 rest with
      | some (m, r) =>
        some (.vInt (if m < 2 ^ 63 then (m : Int) else (m : Int) - 2 ^ 64), r)
      | none => none
    else if b = 0xd9 ∨ b = 0xda ∨ b = 0xdb then
      match unpackStr (b :: rest) with
      | some (s, r) => some (.vStr s, r)
      | none => none
    else if b = 0xdc then
      match readBE 2 rest with
      | some (len, r) =>
        match unpackList f len r with
        | some (vs, r2) => some (.vArr vs, r2)
        | none => none
      | none => none
    else if b = 0xdd then
      match readBE 4 rest with
      | some (len, r) =>
        match unpackList f len r with
        | some (vs, r2) => some (.vArr vs, r2)
        | none => none
      | none => none
    else if b = 0xde then
      match readBE 2 rest with
      | some (len, r) =>
        match unpackFields f len r with
        | some (fs, r2) => some (.vObj fs, r2)
        | none => none
      | none => none
    else if b = 0xdf then
      match readBE 4 rest with
      | some (len, r) =>
        match unpackFields f len r with
        | some (fs, r2) => some (.vObj fs, r2)
        | none => none
      | none => none
    else if 0xe0 ≤ b ∧ b ≤ 0xff then some (.vInt ((b : Int) - 256), rest)
    else none

/-- Decode `count` consecutive values (fuelled). -/
def unpackList (fuel count : Nat) (data : List Nat) : Option (List Value × List Nat) :=
  match fuel, count, data with
  | _, 0, d => some ([], d)
  | 0, _ + 1, _ => none
  | f + 1, c + 1, d =>
    match unpackValue f d with
    | some (v, r) =>
      match unpackList f c r with
      | some (vs, r2) => some (v :: vs, r2)
      | none => none
    | none => none

/-- Decode `count` consecutive string-keyed entries (fuelled). -/
def unpackFields (fuel count : Nat) (data : List Nat) :
    Option (List (List Nat × Value) × List Nat) :=
  match fuel, count, data with
  | _, 0, d => some ([], d)
  | 0, _ + 1, _ => none
  | f + 1, c + 1, d =>
    match unpackStr d with
    | some (k, r) =>
      match unpackValue f r with
      | some (v, r2) =>
        match unpackFields f c r2 with
        | some (fs, r3) => some ((k, v) :: fs, r3)
        | none => none
      | none => none
    | none => none

end

/-! ### MessagePack round-trip lemmas -/

theorem readBE_u16be (n : Nat) (rest : List Nat) (h : n < 2 ^ 16) :
    readBE 2 (u16be n ++ rest) = some (n, rest) := by
  simp only [u16be, List.cons_append, List.nil_append, readBE]
  refine congrArg _ (Prod.ext ?_ rfl)
  simp only []
  omega

theorem readBE_u32be' (n : Nat) (rest : List Nat) (h : n < 2 ^ 32) :
    readBE 4 (u32be n ++ rest) = some (n, rest) := by
  simp only [u32be, List.cons_append, List.nil_append, readBE]
  refine congrArg _ (Prod.ext ?_ rfl)
  simp only []
  omega

theorem readBE_u64be (n : Nat) (rest : List Nat) (h : n < 2 ^ 64) :
    readBE 8 (u64be n ++ rest) = some (n, rest) := by
  simp only [u64be, List.cons_append, List.nil_append, readBE]
  refine congrArg _ (Prod.ext ?_ rfl)
  simp only []
  omega

theorem readBytes_append (s rest : List Nat) :
    readBytes s.length (s ++ rest) = some (s, rest) := by
  induction s with
  | nil => rfl
  | cons b s ih => simp [readBytes, ih]

theorem unpackStr_packStr (s rest : List Nat) (h : s.length < 2 ^ 32) :
    unpackStr (packStr s ++ rest) = some (s, rest) := by
  rw [packStr]
  split_ifs with h1 h2 h3
  · simp only [List.cons_append, unpackStr]
    rw [if_pos ⟨by omega, by omega⟩]
    have hlen : 0xa0 + s.length - 0xa0 = s.length := by omega
    rw [hlen, readBytes_append]
  · simp only [List.cons_append, unpackStr]
    rw [if_neg (by omega), if_pos trivial, readBytes_append]
  · simp only [List.cons_append, List.append_assoc, unpackStr]
    rw [if_neg (by omega), if_neg (by omega), if_pos trivial,
      readBE_u16be s.length (s ++ rest) h3]
    exact readBytes_append s rest
  · simp only [List.cons_append, List.append_assoc, unpackStr]
    rw [if_neg (by omega), if_neg (by omega), if_neg (by omega), if_pos trivial,
      readBE_u32be' s.length (s ++ rest) h]
    exact readBytes_append s rest

/-- Negative fixint decoding: a tag byte in `0xe0 ..= 0xff` is the integer
`b - 256`. -/
theorem unpackValue_negfix (f b : Nat) (rest : List Nat)
    (h1 : 0xe0 ≤ b) (h2 : b ≤ 0xff) :
    unpackValue (f + 1) (b :: rest) = some (.vInt ((b : Int) - 256), rest) := by
  interval_cases b <;> rfl

set_option maxHeartbeats 2000000 in
theorem unpackValue_packInt (f : Nat) (n : Int) (rest : List Nat)
    (h1 : -(2 : Int) ^ 63 ≤ n) (h2 : n < (2 : Int) ^ 64) :
    unpackValue (f + 1) (packInt n ++ rest) = some (.vInt n, rest) := by
  rw [packInt]
  split_ifs with hpos ha hb hc hd he hf' hg hh
  · simp only [List.cons_append, List.nil_append, unpackValue]
    rw [if_pos (show n.toNat < 128 by omega), Int.toNat_of_nonneg hpos]
  · simp only [List.cons_append, List.nil_append, unpackValue]
    norm_num
    exact hpos
  · simp only [List.cons_append, List.append_assoc, unpackValue]
    rw [readBE_u16be n.toNat rest (by omega)]
    norm_num
    exact hpos
  · simp only [List.cons_append, List.append_assoc, unpackValue]
    rw [readBE_u32be' n.toNat rest (by omega)]
    norm_num
    exact hpos
  · simp only [List.cons_append, List.append_assoc, unpackValue]
    rw [readBE_u64be n.toNat rest (by omega)]
    norm_num
    exact hpos
  · simp only [List.cons_append, List.nil_append]
    rw [unpackValue_negfix f (n + 256).toNat rest (by omega) (by omega)]
    have hval : ((n + 256).toNat : Int) - 256 = n := by omega
    rw [hval]
  · simp only [List.cons_append, List.nil_append, unpackValue]
    norm_num
    rw [if_neg (show ¬ ((n + 256).toNat < 128) by omega)]
    omega
  · simp only [List.cons_append, List.append_assoc, unpackValue]
    have hb : readBE 2 (u16be (n + 2 ^ 16).toNat ++ rest) =
        some ((n + 2 ^ 16).toNat, rest) := readBE_u16be _ _ (by omega)
    rw [hb]
    norm_num
    rw [if_neg (show ¬ ((n + 65536).toNat < 32768) by omega)]
    omega
  · simp only [List.cons_append, List.append_assoc, unpackValue]
    have hb : readBE 4 (u32be (n + 2 ^ 32).toNat ++ rest) =
        some ((n + 2 ^ 32).toNat, rest) := readBE_u32be' _ _ (by omega)
    rw [hb]
    norm_num
    rw [if_neg (show ¬ ((n + 4294967296).toNat < 2147483648) by omega)]
    omega
  · simp only [List.cons_append, List.append_assoc, unpackValue]
    have hb : readBE 8 (u64be (n + 2 ^ 64).toNat ++ rest) =
        some ((n + 2 ^ 64).toNat, rest) := readBE_u64be _ _ (by omega)
    rw [hb]
    norm_num
    rw [if_neg (show ¬ ((n + 18446744073709551616).toNat < 9223372036854775808) by omega)]
    omega

theorem unpackValue_strdelegate (f : Nat) (b : Nat) (rest : List Nat)
    (h : (0xa0 ≤ b ∧ b < 0xc0) ∨ b = 0xd9 ∨ b = 0xda ∨ b = 0xdb) :
    unpackValue (f + 1) (b :: rest) =
      match unpackStr (b :: rest) with
      | some (s, r) => some (.vStr s, r)
      | none => none := by
  rcases h with ⟨hlo, hhi⟩ | rfl | rfl | rfl
  · simp only [unpackValue]
    rw [if_neg (by omega), if_neg (by omega), if_neg (by omega), if_pos (by omega)]
  · simp only [unpackValue]
    norm_num
  · simp only [unpackValue]
    norm_num
  · simp only [unpackValue]
    norm_num

theorem unpackValue_packStr (f : Nat) (s rest : List Nat) (h : s.length < 2 ^ 32) :
    unpackValue (f + 1) (packStr s ++ rest) = some (.vStr s, rest) := by
  obtain ⟨b, t, ht, hcond⟩ : ∃ b t, packStr s ++ rest = b :: t ∧
      ((0xa0 ≤ b ∧ b < 0xc0) ∨ b = 0xd9 ∨ b = 0xda ∨ b = 0xdb) := by
    rw [packStr]
    split_ifs with h1 h2 h3
    · exact ⟨_, _, rfl, Or.inl ⟨by omega, by omega⟩⟩
    · exact ⟨_, _, rfl, Or.inr (Or.inl rfl)⟩
    · exact ⟨0xda, u16be s.length ++ s ++ rest, by simp, Or.inr (Or.inr (Or.inl rfl))⟩
    · exact ⟨0xdb, u32be s.length ++ s ++ rest, by simp, Or.inr (Or.inr (Or.inr rfl))⟩
  rw [ht, unpackValue_strdelegate f b t hcond, ← ht, unpackStr_packStr s rest h]

theorem unpackValue_fixarr (f len : Nat) (rest : List Nat) (h : len < 16) :
    unpackValue (f + 1) ((0x90 + len) :: rest) =
      match unpackList f len rest with
      | some (vs, r) => some (.vArr vs, r)
      | none => none := by
  simp only [unpackValue]
  rw [if_neg (by omega), if_neg (by omega), if_pos (by omega)]
  have hl : 0x90 + len - 0x90 = len := by omega
  rw [hl]

theorem unpackValue_arr16 (f len : Nat) (rest : List Nat) (h : len < 2 ^ 16) :
    unpackValue (f + 1) (0xdc :: (u16be len ++ rest)) =
      match unpackList f len rest with
      | some (vs, r) => some (.vArr vs, r)
      | none => none := by
  simp only [unpackValue]
  rw [readBE_u16be len rest h]
  norm_num

theorem unpackValue_arr32 (f len : Nat) (rest : List Nat) (h : len < 2 ^ 32) :
    unpackValue (f + 1) (0xdd :: (u32be len ++ rest)) =
      match unpackList f len rest with
      | some (vs, r) => some (.vArr vs, r)
      | none => none := by
  simp only [unpackValue]
  rw [readBE_u32be' len rest h]
  norm_num

theorem unpackValue_fixmap (f len : Nat) (rest : List Nat) (h : len < 16) :
    unpackValue (f + 1) ((0x80 + len) :: rest) =
      match unpackFields f len rest with
      | some (fs, r) => some (.vObj fs, r)
      | none => none := by
  simp only [unpackValue]
  rw [if_neg (by omega), if_pos (by omega)]
  have hl : 0x80 + len - 0x80 = len := by omega
  rw [hl]

theorem unpackValue_map16 (f len : Nat) (rest : List Nat) (h : len < 2 ^ 16) :
    unpackValue (f + 1) (0xde :: (u16be len ++ rest)) =
      match unpackFields f len rest with
      | some (fs, r) => some (.vObj fs, r)
      | none => none := by
  simp only [unpackValue]
  rw [readBE_u16be len rest h]
  norm_num

theorem unpackValue_map32 (f len : Nat) (rest : List Nat) (h : len < 2 ^ 32) :
    unpackValue (f + 1) (0xdf :: (u32be len ++ rest)) =
      match unpackFields f len rest with
      | some (fs, r) => some (.vObj fs, r)
      | none => none := by
  simp only [unpackValue]
  rw [readBE_u32be' len rest h]
  norm_num

mutual

/-- Fuel sufficient for `unpackValue` to decode `packValue v`. -/
def mFuelV : Value → Nat
  | .vNull => 1
  | .vBool _ => 1
  | .vInt _ => 1
  | .vStr _ => 1
  | .vArr items => 1 + mFuelL items
  | .vObj fields => 1 + mFuelF fields

/-- Fuel sufficient for `unpackList`. -/
def mFuelL : List Value → Nat
  | [] => 0
  | v :: vs => 1 + max (mFuelV v) (mFuelL vs)

/-- Fuel sufficient for `unpackFields`. -/
def mFuelF : List (List Nat × Value) → Nat
  | [] => 0
  | (_, v) :: fs => 1 + max (mFuelV v) (mFuelF fs)

end

theorem mFuelV_pos (v : Value) : 1 ≤ mFuelV v := by
  cases v <;> simp [mFuelV]

theorem unpackList_succ (f c : Nat) (d : List Nat) :
    unpackList (f + 1) (c + 1) d =
      match unpackValue f d with
      | some (v, r) =>
        match unpackList f c r with
        | some (vs, r2) => some (v :: vs, r2)
        | none => none
      | none => none := rfl

theorem unpackFields_succ (f c : Nat) (d : List Nat) :
    unpackFields (f + 1) (c + 1) d =
      match unpackStr d with
      | some (k, r) =>
        match unpackValue f r with
        | some (v, r2) =>
          match unpackFields f c r2 with
          | some (fs, r3) => some ((k, v) :: fs, r3)
          | none => none
        | none => none
      | none => none := rfl

/-- MessagePack round-trip at every sufficient fuel, simultaneously for
values, element lists, and field lists. -/
theorem unpack_pack_all (fuel : Nat) :
    (∀ v rest, sizeOkV v = true → mFuelV v ≤ fuel →
        unpackValue fuel (packValue v ++ rest) = some (v, rest))
    ∧ (∀ vs rest, sizeOkL vs = true → mFuelL vs ≤ fuel →
        unpackList fuel vs.length (packList vs ++ rest) = some (vs, rest))
    ∧ (∀ fs rest, sizeOkF fs = true → mFuelF fs ≤ fuel →
        unpackFields fuel fs.length (packFields fs ++ rest) = some (fs, rest)) := by
  induction fuel with
  | zero =>
    refine ⟨?_, ?_, ?_⟩
    · intro v rest _ hf
      exact absurd hf (by have := mFuelV_pos v; omega)
    · intro vs rest _ hf
      cases vs with
      | nil => rfl
      | cons v vs =>
        exfalso
        simp [mFuelL] at hf
    · intro fs rest _ hf
      cases fs with
      | nil => rfl
      | cons kv fs =>
        obtain ⟨k, v⟩ := kv
        exfalso
        simp [mFuelF] at hf
  | succ f ih =>
    obtain ⟨ihV, ihL, ihF⟩ := ih
    refine ⟨?_, ?_, ?_⟩
    · intro v rest hsz hf
      cases v with
      | vNull =>
        simp only [packValue, List.cons_append, List.nil_append, unpackValue]
        norm_num
      | vBool b =>
        cases b <;>
          simp only [packValue, List.cons_append, List.nil_append, unpackValue] <;>
          norm_num
      | vInt n =>
        simp only [sizeOkV, Bool.and_eq_true, decide_eq_true_eq] at hsz
        exact unpackValue_packInt f n rest hsz.1 hsz.2
      | vStr s =>
        simp only [sizeOkV, decide_eq_true_eq] at hsz
        exact unpackValue_packStr f s rest hsz
      | vArr items =>
        simp only [sizeOkV, Bool.and_eq_true, decide_eq_true_eq] at hsz
        obtain ⟨hlen, hszL⟩ := hsz
        have hfl : mFuelL items ≤ f := by
          simp only [mFuelV] at hf
          omega
        have hlist := ihL items rest hszL hfl
        simp only [packValue]
        split_ifs with h1 h2
        · simp only [List.cons_append, List.nil_append, List.append_assoc]
          rw [unpackValue_fixarr f items.length (packList items ++ rest) h1, hlist]
        · simp only [List.cons_append, List.append_assoc]
          rw [unpackValue_arr16 f items.length (packList items ++ rest) h2, hlist]
        · simp only [List.cons_append, List.append_assoc]
          rw [unpackValue_arr32 f items.length (packList items ++ rest) hlen, hlist]
      | vObj fields =>
        simp only [sizeOkV, Bool.and_eq_true, decide_eq_true_eq] at hsz
        obtain ⟨hlen, hszF⟩ := hsz
        have hff : mFuelF fields ≤ f := by
          simp only [mFuelV] at hf
          omega
        have hfields := ihF fields rest hszF hff
        simp only [packValue]
        split_ifs with h1 h2
        · simp only [List.cons_append, List.nil_append, List.append_assoc]
          rw [unpackValue_fixmap f fields.length (packFields fields ++ rest) h1, hfields]
        · simp only [List.cons_append, List.append_assoc]
          rw [unpackValue_map16 f fields.length (packFields fields ++ rest) h2, hfields]
        · simp only [List.cons_append, List.append_assoc]
          rw [unpackValue_map32 f fields.length (packFields fields ++ rest) hlen, hfields]
    · intro vs rest hsz hf
      cases vs with
      | nil => rfl
      | cons v vs =>
        simp only [sizeOkL, Bool.and_eq_true] at hsz
        simp only [mFuelL] at hf
        have hmax := Nat.max_le.mp (show max (mFuelV v) (mFuelL vs) ≤ f by omega)
        simp only [packList, List.length_cons, List.append_assoc]
        rw [unpackList_succ]
        simp only [ihV v (packList vs ++ rest) hsz.1 hmax.1,
          ihL vs rest hsz.2 hmax.2]
    · intro fs rest hsz hf
      cases fs with
      | nil => rfl
      | cons kv fs =>
        obtain ⟨k, v⟩ := kv
        simp only [sizeOkF, Bool.and_eq_true, decide_eq_true_eq] at hsz
        obtain ⟨⟨hk, hv⟩, hfs⟩ := hsz
        simp only [mFuelF] at hf
        have hmax := Nat.max_le.mp (show max (mFuelV v) (mFuelF fs) ≤ f by omega)
        simp only [packFields, List.length_cons, List.append_assoc]
        rw [unpackFields_succ,
          unpackStr_packStr k (packValue v ++ (packFields fs ++ rest)) hk]
        simp only [ihV v (packFields fs ++ rest) hv hmax.1,
          ihF fs rest hfs hmax.2]

theorem packValue_length_pos (v : Value) : 1 ≤ (packValue v).length := by
  cases v with
  | vNull => simp [packValue]
  | vBool b => cases b <;> simp [packValue]
  | vInt n =>
    simp only [packValue, packInt]
    split_ifs <;> simp [u16be, u32be, u64be]
  | vStr s =>
    simp only [packValue, packStr]
    split_ifs <;> simp [u16be, u32be]
  | vArr items =>
    simp only [packValue]
    split_ifs <;> simp [u16be, u32be]
  | vObj fields =>
    simp only [packValue]
    split_ifs <;> simp [u16be, u32be]

mutual

theorem mFuelV_le_len (v : Value) : mFuelV v ≤ 2 * (packValue v).length := by
  cases v with
  | vNull => simp [mFuelV, packValue]
  | vBool b => cases b <;> simp [mFuelV, packValue]
  | vInt n =>
    have := packValue_length_pos (.vInt n)
    simp only [mFuelV]
    omega
  | vStr s =>
    have := packValue_length_pos (.vStr s)
    simp only [mFuelV]
    omega
  | vArr items =>
    have h1 := mFuelL_le_len items
    simp only [mFuelV, packValue]
    split_ifs <;> simp [List.length_append, u16be, u32be] <;> omega
  | vObj fields =>
    have h1 := mFuelF_le_len fields
    simp only [mFuelV, packValue]
    split_ifs <;> simp [List.length_append, u16be, u32be] <;> omega

theorem mFuelL_le_len (vs : List Value) : mFuelL vs ≤ 1 + 2 * (packList vs).length := by
  cases vs with
  | nil => simp [mFuelL]
  | cons v vs =>
    have hv := mFuelV_le_len v
    have hl := mFuelL_le_len vs
    have hp := packValue_length_pos v
    simp only [mFuelL, packList, List.length_append]
    omega

theorem mFuelF_le_len (fs : List (List Nat × Value)) :
    mFuelF fs ≤ 1 + 2 * (packFields fs).length := by
  cases fs with
  | nil => simp [mFuelF]
  | cons kv fs =>
    obtain ⟨k, v⟩ := kv
    have hv := mFuelV_le_len v
    have hl := mFuelF_le_len fs
    have hp := packValue_length_pos v
    have hk : 1 ≤ (packStr k).length := by
      rw [packStr]
      split_ifs <;> simp [u16be, u32be]
    simp only [mFuelF, packFields, List.length_append]
    omega

end

/-! ### JSON text codec

Modelled from the spec: `JSON.stringify`/`JSON.parse` — "textual JSON".
The serializer emits standard JSON over the `Value` universe (strings with
`\"`, `\\` and `\u00XX` escapes for control bytes, decimal integers, arrays,
objects); the parser is a recursive-descent reader of exactly that grammar. -/

/-- ASCII decimal digit test. -/
def isDigit (b : Nat) : Bool := 48 ≤ b && b ≤ 57

/-- Is the first byte a decimal digit? -/
def headIsDigit : List Nat → Bool
  | [] => false
  | b :: _ => isDigit b

/-- Lower-case hex digit for a nibble. -/
def hexDigit (n : Nat) : Nat := if n < 10 then 48 + n else 87 + n

/-- Value of an ASCII hex digit. -/
def hexVal (b : Nat) : Option Nat :=
  if 48 ≤ b ∧ b ≤ 57 then some (b - 48)
  else if 97 ≤ b ∧ b ≤ 102 then some (b - 87)
  else if 65 ≤ b ∧ b ≤ 70 then some (b - 55)
  else none

/-- Decimal digits (ASCII, most significant first) of a natural number. -/
def natToDec (n : Nat) : List Nat :=
  if n = 0 then [48] else (Nat.digits 10 n).reverse.map (fun d => d + 48)

/-- Fold ASCII decimal digits back into a number. -/
def decOfDigits (ds : List Nat) : Nat :=
  ds.foldl (fun acc d => acc * 10 + (d - 48)) 0

/-- Greedy decimal-number parse off the front of the input. -/
def parseNumber (data : List Nat) : Option (Nat × List Nat) :=
  if (data.takeWhile isDigit).isEmpty then none
  else some (decOfDigits (data.takeWhile isDigit), data.drop (data.takeWhile isDigit).length)

/-- JSON escape of one string byte. -/
def escapeByte (b : Nat) : List Nat :=
  if b = 34 then [92, 34]
  else if b = 92 then [92, 92]
  else if b < 32 then [92, 117, 48, 48, hexDigit (b / 16), hexDigit (b % 16)]
  else [b]

/-- JSON escape of a string body. -/
def escapeStr : List Nat → List Nat
  | [] => []
  | b :: bs => escapeByte b ++ escapeStr bs

/-- Prepend a decoded byte to a string-parse result. -/
def consHead (b : Nat) : Option (List Nat × List Nat) → Option (List Nat × List Nat)
  | some (s, r) => some (b :: s, r)
  | none => none

/-- Parse a JSON string body up to and including the closing quote. -/
def parseStrBody : Nat → List Nat → Option (List Nat × List Nat)
  | 0, _ => none
  | _ + 1, [] => none
  | f + 1, b :: rest =>
    if b = 34 then some ([], rest)
    else if b = 92 then
      match rest with
      | 34 :: rest2 => consHead 34 (parseStrBody f rest2)
      | 92 :: rest2 => consHead 92 (parseStrBody f rest2)
      | 117 :: h1 :: h2 :: h3 :: h4 :: rest2 =>
        match hexVal h1, hexVal h2, hexVal h3, hexVal h4 with
        | some x1, some x2, some x3, some x4 =>
          consHead (((x1 * 16 + x2) * 16 + x3) * 16 + x4) (parseStrBody f rest2)
        | _, _, _, _ => none
      | _ => none
    else consHead b (parseStrBody f rest)

/-- Is the first byte `b`? -/
def headIs (l : List Nat) (b : Nat) : Bool :=
  match l with
  | x :: _ => x == b
  | [] => false

mutual

/-- JSON serialization of a value. -/
def jsonSerV : Value → List Nat
  | .vNull => [110, 117, 108, 108]
  | .vBool true => [116, 114, 117, 101]
  | .vBool false => [102, 97, 108, 115, 101]
  | .vInt n => if n < 0 then 45 :: natToDec (-n).toNat else natToDec n.toNat
  | .vStr s => 34 :: (escapeStr s ++ [34])
  | .vArr items => 91 :: (jsonSerElems items ++ [93])
  | .vObj fields => 123 :: (jsonSerFields fields ++ [125])

/-- Comma-separated serialization of array elements. -/
def jsonSerElems : List Value → List Nat
  | [] => []
  | [v] => jsonSerV v
  | v :: vs => jsonSerV v ++ 44 :: jsonSerElems vs

/-- Comma-separated serialization of object members. -/
def jsonSerFields : List (List Nat × Value) → List Nat
  | [] => []
  | [(k, v)] => 34 :: (escapeStr k ++ (34 :: 58 :: jsonSerV v))
  | (k, v) :: fs => 34 :: (escapeStr k ++ (34 :: 58 :: jsonSerV v)) ++ 44 :: jsonSerFields fs

end

mutual

/-- Recursive-descent JSON value parse (fuelled). -/
def jsonParseV (fuel : Nat) (data : List Nat) : Option (Value × List Nat) :=
  match fuel, data with
  | 0, _ => none
  | _ + 1, [] => none
  | f + 1, b :: rest =>
    if b = 110 then
      match rest with
      | 117 :: 108 :: 108 :: r => some (.vNull, r)
      | _ => none
    else if b = 116 then
      match rest with
      | 114 :: 117 :: 101 :: r => some (.vBool true, r)
      | _ => none
    else if b = 102 then
      match rest with
      | 97 :: 108 :: 115 :: 101 :: r => some (.vBool false, r)
      | _ => none
    else if b = 34 then
      match parseStrBody (rest.length + 1) rest with
      | some (s, r) => some (.vStr s, r)
      | none => none
    else if b = 91 then
      if headIs rest 93 then some (.vArr [], rest.tail)
      else
        match jsonParseElems f rest with
        | some (vs, r) => some (.vArr vs, r)
        | none => none
    else if b = 123 then
      if headIs rest 125 then some (.vObj [], rest.tail)
      else
        match jsonParseFields f rest with
        | some (fs, r) => some (.vObj fs, r)
        | none => none
    else if b = 45 then
      match parseNumber rest with
      | some (m, r) => some (.vInt (-(m : Int)), r)
      | none => none
    else if isDigit b then
      match parseNumber (b :: rest) with
      | some (m, r) => some (.vInt (m : Int), r)
      | none => none
    else none

/-- Parse one or more comma-separated values up to the closing bracket. -/
def jsonParseElems (fuel : Nat) (data : List Nat) : Option (List Value × List Nat) :=
  match fuel with
  | 0 => none
  | f + 1 =>
    match jsonParseV f data with
    | some (v, r) =>
      match r with
      | 44 :: r2 =>
        match jsonParseElems f r2 with
        | some (vs, r3) => some (v :: vs, r3)
        | none => none
      | 93 :: r2 => some ([v], r2)
      | _ => none
    | none => none

/-- Parse one or more comma-separated members up to the closing brace. -/
def jsonParseFields (fuel : Nat) (data : List Nat) :
    Option (List (List Nat × Value) × List Nat) :=
  match fuel with
  | 0 => none
  | f + 1 =>
    match data with
    | 34 :: rest =>
      match parseStrBody (rest.length + 1) rest with
      | some (k, r) =>
        match r with
        | 58 :: r2 =>
          match jsonParseV f r2 with
          | some (v, r3) =>
            match r3 with
            | 44 :: r4 =>
              match jsonParseFields f r4 with
              | some (fs, r5) => some ((k, v) :: fs, r5)
              | none => none
            | 125 :: r4 => some ([(k, v)], r4)
            | _ => none
          | none => none
        | _ => none
      | none => none
    | _ => none

end

mutual

/-- Fuel sufficient for `jsonParseV` to read back `jsonSerV v`. -/
def jFuelV : Value → Nat
  | .vNull => 1
  | .vBool _ => 1
  | .vInt _ => 1
  | .vStr _ => 1
  | .vArr items => 1 + jFuelL items
  | .vObj fields => 1 + jFuelF fields

/-- Fuel sufficient for `jsonParseElems`. -/
def jFuelL : List Value → Nat
  | [] => 0
  | v :: vs => 1 + max (jFuelV v) (jFuelL vs)

/-- Fuel sufficient for `jsonParseFields`. -/
def jFuelF : List (List Nat × Value) → Nat
  | [] => 0
  | (_, v) :: fs => 1 + max (jFuelV v) (jFuelF fs)

end

/-! ### JSON codec lemmas -/

theorem natToDec_ne_nil (n : Nat) : natToDec n ≠ [] := by
  rw [natToDec]
  split_ifs with h
  · simp
  · simp [Nat.digits_ne_nil_iff_ne_zero, h]

theorem natToDec_digits (n : Nat) : ∀ b ∈ natToDec n, 48 ≤ b ∧ b ≤ 57 := by
  intro b hb
  rw [natToDec] at hb
  split_ifs at hb with h
  · simp at hb
    omega
  · simp only [List.mem_map, List.mem_reverse] at hb
    obtain ⟨d, hd, rfl⟩ := hb
    have := Nat.digits_lt_base (by norm_num) hd
    omega

theorem foldl_reverse_digits (L : List Nat) (acc : Nat) :
    L.reverse.foldl (fun a d => a * 10 + d) acc = acc * 10 ^ L.length + Nat.ofDigits 10 L := by
  induction L generalizing acc with
  | nil => simp
  | cons d L ih =>
    simp only [List.reverse_cons, List.foldl_append, ih, Nat.ofDigits_cons,
      List.length_cons, List.foldl_cons, List.foldl_nil, pow_succ]
    ring

theorem decOfDigits_natToDec (n : Nat) : decOfDigits (natToDec n) = n := by
  rw [natToDec]
  split_ifs with h
  · simp [decOfDigits, h]
  · rw [decOfDigits, List.foldl_map]
    simp only [Nat.add_sub_cancel]
    have := foldl_reverse_digits (Nat.digits 10 n) 0
    simp only [zero_mul, zero_add] at this
    rw [this, Nat.ofDigits_digits]

theorem takeWhile_append_digits (l r : List Nat) (hl : ∀ b ∈ l, isDigit b = true)
    (hr : headIsDigit r = false) :
    (l ++ r).takeWhile isDigit = l := by
  induction l with
  | nil =>
    cases r with
    | nil => rfl
    | cons b r' =>
      simp only [headIsDigit] at hr
      simp [List.takeWhile_cons, hr]
  | cons b l ih =>
    simp only [List.cons_append, List.takeWhile_cons, hl b (by simp)]
    rw [ih (fun x hx => hl x (by simp [hx]))]
    exact if_pos trivial

theorem parseNumber_natToDec (n : Nat) (rest : List Nat) (hr : headIsDigit rest = false) :
    parseNumber (natToDec n ++ rest) = some (n, rest) := by
  have htw : (natToDec n ++ rest).takeWhile isDigit = natToDec n :=
    takeWhile_append_digits _ _
      (fun b hb => by
        have := natToDec_digits n b hb
        simp only [isDigit, Bool.and_eq_true, decide_eq_true_eq]
        omega)
      hr
  rw [parseNumber]
  simp only [htw]
  rw [if_neg (by simp [natToDec_ne_nil n]), decOfDigits_natToDec, List.drop_left]

theorem escapeStr_length_ge (s : List Nat) : s.length ≤ (escapeStr s).length := by
  induction s with
  | nil => simp [escapeStr]
  | cons b bs ih =>
    have hb : 1 ≤ (escapeByte b).length := by
      rw [escapeByte]
      split_ifs <;> simp
    simp only [escapeStr, List.length_append, List.length_cons]
    omega

theorem hexVal_hexDigit (x : Nat) (h : x < 16) : hexVal (hexDigit x) = some x := by
  rw [hexDigit]
  split_ifs with h1
  · rw [hexVal, if_pos ⟨by omega, by omega⟩]
    congr 1
    omega
  · rw [hexVal, if_neg (by omega), if_pos ⟨by omega, by omega⟩]
    congr 1
    omega

theorem parseStrBody_escape (s : List Nat) : ∀ (fuel : Nat) (rest : List Nat),
    s.length + 1 ≤ fuel →
    parseStrBody fuel (escapeStr s ++ (34 :: rest)) = some (s, rest) := by
  induction s with
  | nil =>
    intro fuel rest hf
    obtain ⟨f, rfl⟩ : ∃ f, fuel = f + 1 := ⟨fuel - 1, by omega⟩
    simp [escapeStr, parseStrBody]
  | cons b bs ih =>
    intro fuel rest hf
    obtain ⟨f, rfl⟩ : ∃ f, fuel = f + 1 := ⟨fuel - 1, by omega⟩
    simp only [escapeStr, List.append_assoc]
    rw [escapeByte]
    split_ifs with h1 h2 h3
    · subst h1
      simp only [List.cons_append, List.nil_append, parseStrBody]
      norm_num
      rw [ih f rest (by simp at hf; omega)]
      rfl
    · subst h2
      simp only [List.cons_append, List.nil_append, parseStrBody]
      norm_num
      rw [ih f rest (by simp at hf; omega)]
      rfl
    · simp only [List.cons_append, List.nil_append, parseStrBody]
      norm_num
      rw [hexVal_hexDigit (b / 16) (by omega), hexVal_hexDigit (b % 16) (by omega),
        ih f rest (by simp at hf; omega)]
      show some ((((0 * 16 + 0) * 16 + b / 16) * 16 + b % 16) :: bs, rest) = some (b :: bs, rest)
      have hb : ((0 * 16 + 0) * 16 + b / 16) * 16 + b % 16 = b := by omega
      rw [hb]
    · simp only [List.singleton_append, parseStrBody]
      rw [if_neg h1, if_neg h2]
      simp only [List.append_eq, List.nil_append]
      rw [ih f rest (by simp at hf; omega)]
      rfl

theorem jsonSerV_head (v : Value) :
    ∃ b t, jsonSerV v = b :: t ∧ b ≠ 93 ∧ b ≠ 125 := by
  cases v with
  | vNull => exact ⟨110, _, rfl, by omega, by omega⟩
  | vBool b =>
    cases b
    · exact ⟨102, _, rfl, by omega, by omega⟩
    · exact ⟨116, _, rfl, by omega, by omega⟩
  | vInt n =>
    simp only [jsonSerV]
    split_ifs with h
    · exact ⟨45, _, rfl, by omega, by omega⟩
    · cases hd : natToDec n.toNat with
      | nil => exact absurd hd (natToDec_ne_nil _)
      | cons b t =>
        have hb := natToDec_digits n.toNat b (by rw [hd]; simp)
        exact ⟨b, t, rfl, by omega, by omega⟩
  | vStr s => exact ⟨34, _, rfl, by omega, by omega⟩
  | vArr items => exact ⟨91, _, rfl, by omega, by omega⟩
  | vObj fields => exact ⟨123, _, rfl, by omega, by omega⟩

theorem jsonSerElems_cons_head (v : Value) (vs : List Value) :
    ∃ b t, jsonSerElems (v :: vs) = b :: t ∧ b ≠ 93 ∧ b ≠ 125 := by
  obtain ⟨b, t, hbt, h93, h125⟩ := jsonSerV_head v
  cases vs with
  | nil => exact ⟨b, t, by simp [jsonSerElems, hbt], h93, h125⟩
  | cons v' vs' =>
    exact ⟨b, t ++ 44 :: jsonSerElems (v' :: vs'), by simp [jsonSerElems, hbt], h93, h125⟩

theorem jsonSerFields_cons_head (k : List Nat) (v : Value) (fs : List (List Nat × Value)) :
    ∃ t, jsonSerFields ((k, v) :: fs) = 34 :: t := by
  cases fs with
  | nil => exact ⟨_, rfl⟩
  | cons kv' fs' =>
    obtain ⟨k', v'⟩ := kv'
    exact ⟨_, rfl⟩

/-- JSON round-trip at every sufficient fuel, simultaneously for values,
element lists, and member lists.  The trailing input must not begin with a
digit (the number parse is greedy); every separator and close bracket that
follows a serialized value satisfies this. -/
theorem json_parse_ser_all (fuel : Nat) :
    (∀ v rest, headIsDigit rest = false → jFuelV v ≤ fuel →
        jsonParseV fuel (jsonSerV v ++ rest) = some (v, rest))
    ∧ (∀ vs rest, vs ≠ [] → jFuelL vs ≤ fuel →
        jsonParseElems fuel (jsonSerElems vs ++ 93 :: rest) = some (vs, rest))
    ∧ (∀ fs rest, fs ≠ [] → jFuelF fs ≤ fuel →
        jsonParseFields fuel (jsonSerFields fs ++ 125 :: rest) = some (fs, rest)) := by
  induction fuel with
  | zero =>
    refine ⟨?_, ?_, ?_⟩
    · intro v rest _ hf
      have : 1 ≤ jFuelV v := by cases v <;> simp [jFuelV]
      omega
    · intro vs rest hne hf
      cases vs with
      | nil => exact absurd rfl hne
      | cons v vs => simp [jFuelL] at hf
    · intro fs rest hne hf
      cases fs with
      | nil => exact absurd rfl hne
      | cons kv fs =>
        obtain ⟨k, v⟩ := kv
        simp [jFuelF] at hf
  | succ f ih =>
    obtain ⟨ihV, ihL, ihF⟩ := ih
    refine ⟨?_, ?_, ?_⟩
    · intro v rest hrd hf
      cases v with
      | vNull => rfl
      | vBool b => cases b <;> rfl
      | vInt n =>
        by_cases hneg : n < 0
        · simp only [jsonSerV, if_pos hneg, List.cons_append]
          simp only [jsonParseV]
          norm_num
          rw [parseNumber_natToDec (-n).toNat rest hrd]
          show some (Value.vInt (-(((-n).toNat : Nat) : Int)), rest) = some (Value.vInt n, rest)
          rw [show (-(((-n).toNat : Nat) : Int)) = n by omega]
        · simp only [jsonSerV, if_neg hneg]
          cases hd : natToDec n.toNat with
          | nil => exact absurd hd (natToDec_ne_nil _)
          | cons b t =>
            have hb := natToDec_digits n.toNat b (by rw [hd]; simp)
            simp only [List.cons_append]
            simp only [jsonParseV]
            have hb110 : ¬ (b = 110) := by omega
            rw [if_neg hb110, if_neg (by omega), if_neg (by omega), if_neg (by omega),
              if_neg (by omega), if_neg (by omega), if_neg (by omega),
              if_pos (show isDigit b = true by
                simp only [isDigit, Bool.and_eq_true, decide_eq_true_eq]
                omega)]
            have hpn := parseNumber_natToDec n.toNat rest hrd
            rw [hd] at hpn
            simp only [List.cons_append] at hpn
            rw [hpn]
            show some (Value.vInt ((n.toNat : Nat) : Int), rest) = some (Value.vInt n, rest)
            rw [Int.toNat_of_nonneg (by omega)]
      | vStr s =>
        simp only [jsonSerV, List.cons_append, List.append_assoc, List.singleton_append]
        simp only [jsonParseV]
        norm_num
        have hps := parseStrBody_escape s ((escapeStr s ++ 34 :: rest).length + 1) rest (by
          have := escapeStr_length_ge s
          simp only [List.length_append, List.length_cons]
          omega)
        simp only [List.length_append, List.length_cons] at hps
        rw [hps]
      | vArr items =>
        cases items with
        | nil =>
          simp only [jsonSerV, jsonSerElems, List.nil_append, List.cons_append]
          simp only [jsonParseV]
          norm_num [headIs]
        | cons v vs =>
          simp only [jFuelV] at hf
          obtain ⟨b, t, hbt, h93, _⟩ := jsonSerElems_cons_head v vs
          have hhead : headIs (jsonSerElems (v :: vs) ++ 93 :: rest) 93 = false := by
            rw [hbt]
            simp only [List.cons_append, headIs]
            simp [h93]
          simp only [jsonSerV, List.cons_append, List.append_assoc, List.singleton_append]
          simp only [jsonParseV]
          norm_num
          rw [hhead]
          norm_num
          rw [ihL (v :: vs) rest (by simp) (by omega)]
      | vObj fields =>
        cases fields with
        | nil =>
          simp only [jsonSerV, jsonSerFields, List.nil_append, List.cons_append]
          simp only [jsonParseV]
          norm_num [headIs]
        | cons kv fs =>
          obtain ⟨k, v⟩ := kv
          simp only [jFuelV] at hf
          obtain ⟨t, hbt⟩ := jsonSerFields_cons_head k v fs
          have hhead : headIs (jsonSerFields ((k, v) :: fs) ++ 125 :: rest) 125 = false := by
            rw [hbt]
            simp [headIs]
          simp only [jsonSerV, List.cons_append, List.append_assoc, List.singleton_append]
          simp only [jsonParseV]
          norm_num
          rw [hhead]
          norm_num
          rw [ihF ((k, v) :: fs) rest (by simp) (by omega)]
    · intro vs rest hne hf
      cases vs with
      | nil => exact absurd rfl hne
      | cons v vs =>
        rw [jFuelL] at hf
        cases vs with
        | nil =>
          simp only [jsonSerElems, jsonParseElems]
          rw [ihV v (93 :: rest) (by simp [headIsDigit, isDigit])
            (by simp only [jFuelL] at hf; omega)]
        | cons v' vs' =>
          simp only [jsonSerElems, List.append_assoc, List.cons_append, jsonParseElems]
          rw [ihV v (44 :: (jsonSerElems (v' :: vs') ++ 93 :: rest))
            (by simp [headIsDigit, isDigit])
            (by have := Nat.le_max_left (jFuelV v) (jFuelL (v' :: vs')); omega)]
          simp only [ihL (v' :: vs') rest (by simp)
            (by have := Nat.le_max_right (jFuelV v) (jFuelL (v' :: vs')); omega)]
    · intro fs rest hne hf
      cases fs with
      | nil => exact absurd rfl hne
      | cons kv fs =>
        obtain ⟨k, v⟩ := kv
        rw [jFuelF] at hf
        cases fs with
        | nil =>
          simp only [jsonSerFields, List.cons_append, List.append_assoc, jsonParseFields]
          have hps := parseStrBody_escape k
            ((escapeStr k ++ 34 :: 58 :: (jsonSerV v ++ 125 :: rest)).length + 1)
            (58 :: (jsonSerV v ++ 125 :: rest)) (by
              have := escapeStr_length_ge k
              simp only [List.length_append, List.length_cons]
              omega)
          have hv := ihV v (125 :: rest) (by simp [headIsDigit, isDigit])
            (by have := Nat.le_max_left (jFuelV v) (jFuelF ([] : List (List Nat × Value)))
                omega)
          simp only [hps, hv]
        | cons kv' fs' =>
          obtain ⟨k', v'⟩ := kv'
          simp only [jsonSerFields, List.cons_append, List.append_assoc, jsonParseFields]
          have hps := parseStrBody_escape k
            ((escapeStr k ++ 34 :: 58 :: (jsonSerV v ++ 44 ::
              (jsonSerFields ((k', v') :: fs') ++ 125 :: rest))).length + 1)
            (58 :: (jsonSerV v ++ 44 :: (jsonSerFields ((k', v') :: fs') ++ 125 :: rest))) (by
              have := escapeStr_length_ge k
              simp only [List.length_append, List.length_cons]
              omega)
          have hv := ihV v (44 :: (jsonSerFields ((k', v') :: fs') ++ 125 :: rest))
            (by simp [headIsDigit, isDigit])
            (by have := Nat.le_max_left (jFuelV v) (jFuelF ((k', v') :: fs')); omega)
          have hfld := ihF ((k', v') :: fs') rest (by simp)
            (by have := Nat.le_max_right (jFuelV v) (jFuelF ((k', v') :: fs')); omega)
          simp only [hps, hv, hfld]

theorem jsonSerV_length_pos (v : Value) : 1 ≤ (jsonSerV v).length := by
  cases v with
  | vNull => simp [jsonSerV]
  | vBool b => cases b <;> simp [jsonSerV]
  | vInt n =>
    simp only [jsonSerV]
    split_ifs
    · simp
    · cases h : natToDec n.toNat with
      | nil => exact absurd h (natToDec_ne_nil _)
      | cons b t => simp [h]
  | vStr s => simp [jsonSerV]
  | vArr items => simp [jsonSerV]
  | vObj fields => simp [jsonSerV]

mutual

theorem jFuelV_le_len (v : Value) : jFuelV v ≤ 2 * (jsonSerV v).length := by
  cases v with
  | vNull => simp [jFuelV, jsonSerV]
  | vBool b => cases b <;> simp [jFuelV, jsonSerV]
  | vInt n =>
    have := jsonSerV_length_pos (.vInt n)
    simp only [jFuelV]
    omega
  | vStr s =>
    have := jsonSerV_length_pos (.vStr s)
    simp only [jFuelV]
    omega
  | vArr items =>
    have h1 := jFuelL_le_len items
    simp only [jFuelV, jsonSerV, List.length_cons, List.length_append]
    omega
  | vObj fields =>
    have h1 := jFuelF_le_len fields
    simp only [jFuelV, jsonSerV, List.length_cons, List.length_append]
    omega

theorem jFuelL_le_len (vs : List Value) : jFuelL vs ≤ 1 + 2 * (jsonSerElems vs).length := by
  cases vs with
  | nil => simp [jFuelL]
  | cons v vs =>
    cases vs with
    | nil =>
      have hv := jFuelV_le_len v
      have hm : max (jFuelV v) (jFuelL ([] : List Value)) ≤ 2 * (jsonSerV v).length :=
        max_le (by omega) (by simp [jFuelL])
      simp only [jFuelL, jsonSerElems]
      omega
    | cons v' vs' =>
      have hv := jFuelV_le_len v
      have hl := jFuelL_le_len (v' :: vs')
      have hm : max (jFuelV v) (jFuelL (v' :: vs')) ≤
          2 * (jsonSerV v).length + 1 + 2 * (jsonSerElems (v' :: vs')).length :=
        max_le (by omega) (by omega)
      rw [jFuelL, show jsonSerElems (v :: v' :: vs') =
        jsonSerV v ++ 44 :: jsonSerElems (v' :: vs') from rfl]
      simp only [List.length_append, List.length_cons]
      omega

theorem jFuelF_le_len (fs : List (List Nat × Value)) :
    jFuelF fs ≤ 1 + 2 * (jsonSerFields fs).length := by
  cases fs with
  | nil => simp [jFuelF]
  | cons kv fs =>
    obtain ⟨k, v⟩ := kv
    cases fs with
    | nil =>
      have hv := jFuelV_le_len v
      have hm : max (jFuelV v) (jFuelF ([] : List (List Nat × Value))) ≤
          2 * (jsonSerV v).length :=
        max_le (by omega) (by simp [jFuelF])
      simp only [jFuelF, jsonSerFields, List.length_cons, List.length_append]
      omega
    | cons kv' fs' =>
      obtain ⟨k', v'⟩ := kv'
      have hv := jFuelV_le_len v
      have hl := jFuelF_le_len ((k', v') :: fs')
      have hm : max (jFuelV v) (jFuelF ((k', v') :: fs')) ≤
          2 * (jsonSerV v).length + 1 + 2 * (jsonSerFields ((k', v') :: fs')).length :=
        max_le (by omega) (by omega)
      rw [jFuelF, show jsonSerFields ((k, v) :: (k', v') :: fs') =
        34 :: (escapeStr k ++ (34 :: 58 :: jsonSerV v)) ++
          44 :: jsonSerFields ((k', v') :: fs') from rfl]
      simp only [List.length_append, List.length_cons]
      omega

end

/-! ### `encodeMessage` / `decodeMessage` (C7) -/

/-- Modelled from the spec: the `unpack` entry point of the compact binary
object codec — decode one value off the front of the buffer. -/
def unpackTop (data : List Nat) : Except String Value :=
  match unpackValue (2 * data.length + 2) data with
  | some (v, _) => .ok v
  | none => .error "Unexpected end of MessagePack data"

/-- Modelled from the spec: `JSON.parse` — the whole input must be one JSON
value. -/
def jsonParseTop (data : List Nat) : Except String Value :=
  match jsonParseV (2 * data.length + 2) data with
  | some (v, []) => .ok v
  | _ => .error "Unexpected token in JSON"

/-- `encodeMessage` from `protocol.ts`: dispatch on the encoding tag between
the binary object codec and JSON text. -/
def encodeMessage (msg : Value) (encoding : Nat) : List Nat :=
  if encoding = EncodingMessagePack then packValue msg else jsonSerV msg

/-- `decodeMessage` from `protocol.ts`. -/
def decodeMessage (data : List Nat) (encoding : Nat) : Except String Value :=
  if encoding = EncodingMessagePack then unpackTop data else jsonParseTop data

/-- C7: for both encodings, encoding a tagged message value and then decoding
the result under the same encoding yields the original value (for the binary
encoding, under the wire-format size bounds `sizeOkV`). -/
theorem message_roundtrip (v : Value) (encoding : Nat)
    (henc : encoding = EncodingMessagePack ∨ encoding = EncodingJson)
    (hsz : sizeOkV v = true) :
    decodeMessage (encodeMessage v encoding) encoding = .ok v := by
  rcases henc with rfl | rfl
  · rw [encodeMessage, if_pos rfl, decodeMessage, if_pos rfl, unpackTop]
    have h := (unpack_pack_all (2 * (packValue v).length + 2)).1 v [] hsz
      (by have := mFuelV_le_len v; omega)
    rw [List.append_nil] at h
    rw [h]
  · rw [encodeMessage, if_neg (by decide), decodeMessage, if_neg (by decide), jsonParseTop]
    have h := (json_parse_ser_all (2 * (jsonSerV v).length + 2)).1 v [] rfl
      (by have := jFuelV_le_len v; omega)
    rw [List.append_nil] at h
    rw [h]

/-- The spec's example message:
`{type:"insert", id:"req-1", collection:"users",
  data:{name:"Alice", age:30, active:true}}` with strings as UTF-8 bytes. -/
def sampleMsg : Value :=
  .vObj [([116, 121, 112, 101], .vStr [105, 110, 115, 101, 114, 116]),
         ([105, 100], .vStr [114, 101, 113, 45, 49]),
         ([99, 111, 108, 108, 101, 99, 116, 105, 111, 110],
          .vStr [117, 115, 101, 114, 115]),
         ([100, 97, 116, 97],
          .vObj [([110, 97, 109, 101], .vStr [65, 108, 105, 99, 101]),
                 ([97, 103, 101], .vInt 30),
                 ([97, 99, 116, 105, 118, 101], .vBool true)])]

/-- Witness for C7 at the spec's example message, under both encodings. -/
theorem message_roundtrip_witness :
    ((EncodingMessagePack = EncodingMessagePack ∨ EncodingMessagePack = EncodingJson)
      ∧ (EncodingJson = EncodingMessagePack ∨ EncodingJson = EncodingJson)
      ∧ sizeOkV sampleMsg = true)
    ∧ decodeMessage (encodeMessage sampleMsg EncodingMessagePack) EncodingMessagePack =
        .ok sampleMsg
    ∧ decodeMessage (encodeMessage sampleMsg EncodingJson) EncodingJson = .ok sampleMsg :=
  ⟨⟨Or.inl rfl, Or.inr rfl, by decide⟩,
   message_roundtrip sampleMsg EncodingMessagePack (Or.inl rfl) (by decide),
   message_roundtrip sampleMsg EncodingJson (Or.inr rfl) (by decide)⟩

end SquirrelDB
